import Mathlib

/-!
# Verification of the savee ingestion worker

A shallow embedding, in Lean 4, of the control and consistency logic of the
savee ingestion pipeline: the run orchestrator loop of
`apps/worker/app/cli.py` (`run_scraper_for_url`), its deduplicating upsert
(`_upsert_block` with the `_asset_fp` fuzzy fingerprint), the storage upload
manager (`apps/worker/app/storage/r2.py`), the job dispatcher loop
(`apps/worker/runner.py`), and the item-link discovery of the scraper
(`apps/worker/app/scraper/savee.py`).

External I/O (the relational store, the object store, the network) is made
explicit: the database is a list of block records threaded through the
functions, and per-item external outcomes (download/upload success, the
externally flipped pause flag) are inputs to the loop.  Machine-level
concerns (asyncio scheduling, SQL round trips) are not modelled; the
sequential orders of checks, updates and early exits are transcribed
statement by statement from the Python source.
-/

namespace Savee

/-! ## Character and string helpers used by the fingerprint and the scraper -/

/-- `[0-9a-fA-F]` character class of the fingerprint regex. -/
def isHexChar (c : Char) : Bool :=
  ('0' ≤ c && c ≤ '9') || ('a' ≤ c && c ≤ 'f') || ('A' ≤ c && c ≤ 'F')

/-- Length of the maximal hex run starting at the head of the list. -/
def hexRunLen (l : List Char) : Nat :=
  (l.takeWhile isHexChar).length

/-- `re.search("[0-9a-fA-F]{10,}", s)`: the leftmost position admitting at
least 10 consecutive hex characters wins, and the match is the maximal hex
run from that position (greedy `{10,}`). -/
def findHexRun : List Char → Option (List Char)
  | [] => none
  | c :: rest =>
      let r := (c :: rest).takeWhile isHexChar
      if 10 ≤ r.length then some r else findHexRun rest

/-- Split a character list into its maximal hex runs, in order (used only to
state the spec's "longest hex-like substring" reading and the amended
"leftmost" reading; the accumulator holds the current run reversed). -/
def hexRunsAux : List Char → List Char → List (List Char)
  | acc, [] => if acc.isEmpty then [] else [acc.reverse]
  | acc, c :: rest =>
      if isHexChar c then hexRunsAux (c :: acc) rest
      else if acc.isEmpty then hexRunsAux [] rest
      else acc.reverse :: hexRunsAux [] rest

/-- All maximal hex runs of a character list, in order of appearance. -/
def hexRuns (l : List Char) : List (List Char) :=
  hexRunsAux [] l

/-! ## `_asset_fp` (apps/worker/app/cli.py, inside `_upsert_block`)

```python
def _asset_fp(u):
    if not u or not isinstance(u, str):
        return None
    base = u.split('?')[0]
    filename = base.rsplit('/', 1)[-1]
    for p in ("original_", "thumb_", "small_", "medium_", "large_"):
        if filename.startswith(p):
            filename = filename[len(p):]
    if '.' in filename:
        filename = filename.rsplit('.', 1)[0]
    m = re.search(r"[0-9a-fA-F]{10,}", filename)
    return (m.group(0) if m else filename).lower()
```
-/

/-- The size/variant prefixes stripped by `_asset_fp`, in source order.  The
loop keeps testing the remaining prefixes on the already-stripped name. -/
def sizeVariantPrefixes : List (List Char) :=
  ["original_".toList, "thumb_".toList, "small_".toList, "medium_".toList,
   "large_".toList]

/-- `u.split('?')[0]`: the prefix before the first `?`. -/
def beforeQuery (cs : List Char) : List Char :=
  cs.takeWhile (· ≠ '?')

/-- `base.rsplit('/', 1)[-1]`: the suffix after the last `/` (the whole
string when no `/` occurs). -/
def lastPathSegment (cs : List Char) : List Char :=
  (cs.reverse.takeWhile (· ≠ '/')).reverse

/-- The sequential prefix-stripping loop of `_asset_fp`. -/
def stripSizePrefixes (cs : List Char) : List Char :=
  sizeVariantPrefixes.foldl
    (fun f p => if p.isPrefixOf f then f.drop p.length else f) cs

/-- `filename.rsplit('.', 1)[0]` guarded by `'.' in filename`: drop the part
from the last `.` on; leave the name alone when it has no dot. -/
def dropLastExtension (cs : List Char) : List Char :=
  if cs.contains '.' then ((cs.reverse.dropWhile (· ≠ '.')).drop 1).reverse
  else cs

/-- The common normalisation pipeline of `_asset_fp` up to (and excluding)
the hex-substring extraction. -/
def fpStem (u : String) : List Char :=
  dropLastExtension (stripSizePrefixes (lastPathSegment (beforeQuery u.toList)))

/-- `_asset_fp` transcribed from the source.  Python's `if not u` makes both
`None` and the empty string return `None`. -/
def asset_fp : Option String → Option String
  | none => none
  | some u =>
      if u = "" then none
      else
        let filename := fpStem u
        match findHexRun filename with
        | some run => some (String.mk (run.map Char.toLower))
        | none => some (String.mk (filename.map Char.toLower))

/-- Modelled from the spec's words for the fuzzy fingerprint: "extracting
the longest hex-like substring (≥10 hex characters) if present".  Identical
pipeline, but the *longest* qualifying run is selected (first one on ties).
Stated only to be compared against `asset_fp`. -/
def assetFpSpecLongest : Option String → Option String
  | none => none
  | some u =>
      if u = "" then none
      else
        let filename := fpStem u
        let longQualifying :=
          ((hexRuns filename).filter (fun r => 10 ≤ r.length)).foldl
            (fun best r =>
              match best with
              | none => some r
              | some b => if r.length > b.length then some r else best) none
        match longQualifying with
        | some run => some (String.mk (run.map Char.toLower))
        | none => some (String.mk (filename.map Char.toLower))

/-- The amended selector: the first (leftmost) maximal hex run of length at
least 10, phrased through `hexRuns` rather than the scanning recursion of
`findHexRun`, so that agreement with `asset_fp` is a real equivalence. -/
def assetFpLeftmost : Option String → Option String
  | none => none
  | some u =>
      if u = "" then none
      else
        let filename := fpStem u
        match (hexRuns filename).find? (fun r => 10 ≤ r.length) with
        | some run => some (String.mk (run.map Char.toLower))
        | none => some (String.mk (filename.map Char.toLower))

/-! ## Data model (apps/worker/app/models)

Only the columns the orchestrator reads or writes are modelled.  `Block`
carries the unique `external_id`, the run/source attribution, the four
fingerprint-relevant URL columns, the storage key and the metadata columns
that `_upsert_block`'s conflict clause updates. -/

/-- Block status values written by the loop (`BlockStatusEnum`). -/
inductive BlockStatus
  | scraped
  | uploaded
deriving DecidableEq, Repr

/-- A row of the `blocks` table (apps/worker/app/models/blocks.py). -/
structure Block where
  id : Nat
  externalId : String
  sourceId : Nat
  runId : Nat
  imageUrl : Option String
  videoUrl : Option String
  thumbnailUrl : Option String
  ogImageUrl : Option String
  r2Key : Option String
  status : BlockStatus
  title : String
  description : String
deriving DecidableEq, Repr

/-- A scraped item as consumed by the loop: the fields
`run_scraper_for_url` and `_upsert_block` read. -/
structure Item where
  externalId : String
  mediaUrl : Option String := none
  mediaType : String := "image"
  imageUrl : Option String := none
  videoUrl : Option String := none
  thumbnailUrl : Option String := none
  ogImageUrl : Option String := none
  title : String := ""
  description : String := ""
deriving DecidableEq, Repr

/-- Python truthiness of an optional string: `None` and `""` are falsy. -/
def pyTruthy : Option String → Bool
  | none => false
  | some s => s ≠ ""

/-! ## `_upsert_block` (apps/worker/app/cli.py)

The pre-dedupe block runs inside a `try`: a `MultipleResultsFound` raised by
`scalar_one_or_none` (two or more rows matching) aborts the whole pre-dedupe
and falls through to the `INSERT ... ON CONFLICT DO UPDATE`.  A returned id
of `0` is falsy in Python, so `if existing_block_id:` / `if fuzzy_id:` fall
through for it (Postgres autoincrement ids start at 1, so this never fires
in practice, but it is transcribed). -/

/-- The `or_` of exact dedupe conditions: equality on `external_id`, plus
equality on each media URL column whose candidate value is truthy. -/
def exactMatched (item : Item) (b : Block) : Bool :=
  b.externalId == item.externalId
  || (pyTruthy item.ogImageUrl && b.ogImageUrl == item.ogImageUrl)
  || (pyTruthy item.imageUrl && b.imageUrl == item.imageUrl)
  || (pyTruthy item.thumbnailUrl && b.thumbnailUrl == item.thumbnailUrl)
  || (pyTruthy item.videoUrl && b.videoUrl == item.videoUrl)

/-- Postgres `LIKE`/`ILIKE` pattern matching, case-insensitively: `%` in
the pattern matches any run of characters, `_` matches exactly one
character, a backslash (the default escape character, since the query
passes no `ESCAPE` clause) makes the following pattern character literal,
and every other character matches itself up to case.  A malformed pattern
ending in a lone backslash matches nothing (Postgres raises there; the
patterns built below always end in `%`, so this branch is unreachable for
them). -/
def likeMatch : List Char → List Char → Bool
  | [], s => s.isEmpty
  | '%' :: p, s => s.tails.any fun t => likeMatch p t
  | '\\' :: c :: p, s =>
      match s with
      | [] => false
      | d :: s' => (Char.toLower c == Char.toLower d) && likeMatch p s'
  | ['\\'], _ => false
  | '_' :: p, s =>
      match s with
      | [] => false
      | _ :: s' => likeMatch p s'
  | c :: p, s =>
      match s with
      | [] => false
      | d :: s' => (Char.toLower c == Char.toLower d) && likeMatch p s'

/-- `column.ilike(f"%{fp}%")` on a nullable column: the fingerprint is
spliced, unescaped, between two `%` wildcards, so `_` and `%` characters
*inside* the fingerprint act as SQL wildcards of their own (`NULL` never
matches). -/
def ilikeContains (fp : String) (field : Option String) : Bool :=
  match field with
  | none => false
  | some s => likeMatch ('%' :: (fp.toList ++ ['%'])) s.toList

/-- The fuzzy `or_` across the four URL columns for one fingerprint. -/
def fuzzyMatched (fp : String) (b : Block) : Bool :=
  ilikeContains fp b.ogImageUrl || ilikeContains fp b.imageUrl
  || ilikeContains fp b.thumbnailUrl || ilikeContains fp b.videoUrl

/-- `fps = list(filter(None, [_asset_fp(og), _asset_fp(img), _asset_fp(thumb),
_asset_fp(vid)]))`: `filter(None, ...)` drops both `None` and `""`. -/
def assetFps (item : Item) : List String :=
  (([item.ogImageUrl, item.imageUrl, item.thumbnailUrl,
     item.videoUrl].map asset_fp).reduceOption).filter (· ≠ "")

/-- Outcome of the pre-dedupe block: early return of an existing id, or fall
through to the insert/on-conflict statement. -/
inductive PreDedupe
  | ret (blockId : Nat)
  | insertPath
deriving DecidableEq, Repr

/-- The fuzzy loop over the fingerprints: a unique (truthy-id) match returns
it; no match tries the next fingerprint; two or more matches raise out of
the `try`, reaching the insert statement. -/
def fuzzyLoop (db : List Block) : List String → PreDedupe
  | [] => .insertPath
  | fp :: rest =>
      match db.filter (fuzzyMatched fp) with
      | [] => fuzzyLoop db rest
      | [b] => if b.id ≠ 0 then .ret b.id else fuzzyLoop db rest
      | _ :: _ :: _ => .insertPath

/-- The whole pre-dedupe: exact match first, then the fuzzy loop. -/
def preDedupe (db : List Block) (item : Item) : PreDedupe :=
  match db.filter (exactMatched item) with
  | [] => fuzzyLoop db (assetFps item)
  | [b] => if b.id ≠ 0 then .ret b.id else fuzzyLoop db (assetFps item)
  | _ :: _ :: _ => .insertPath

/-- The freshly inserted row (the `insert(Block).values(...)` payload). -/
def newBlock (id sourceId runId : Nat) (item : Item) (r2Key : Option String) :
    Block :=
  { id := id
    externalId := item.externalId
    sourceId := sourceId
    runId := runId
    imageUrl := item.imageUrl
    videoUrl := item.videoUrl
    thumbnailUrl := item.thumbnailUrl
    ogImageUrl := item.ogImageUrl
    r2Key := r2Key
    status := if pyTruthy r2Key then .uploaded else .scraped
    title := item.title
    description := item.description }

/-- The `ON CONFLICT (external_id) DO UPDATE SET ...` clause: it rewrites
title, description, status, storage key and the OpenGraph image URL (among
the unmodelled metadata columns), and deliberately leaves `source_id`,
`run_id`, `external_id` and the plain media URL columns untouched. -/
def conflictUpdate (item : Item) (r2Key : Option String) (b : Block) : Block :=
  { b with
    title := item.title
    description := item.description
    status := if pyTruthy r2Key then .uploaded else .scraped
    r2Key := r2Key
    ogImageUrl := item.ogImageUrl }

/-- The insert statement plus the trailing `select Block.id where
external_id == item.external_id` that produces the returned id.  Returns
(block id, new table, next autoincrement id). -/
def insertOnConflict (db : List Block) (nextId sourceId runId : Nat)
    (item : Item) (r2Key : Option String) : Nat × List Block × Nat :=
  if db.any (fun b => b.externalId == item.externalId) then
    let db' := db.map fun b =>
      if b.externalId == item.externalId then conflictUpdate item r2Key b else b
    (((db'.find? (fun b => b.externalId == item.externalId)).map Block.id).getD 0,
     db', nextId)
  else
    (nextId, db ++ [newBlock nextId sourceId runId item r2Key], nextId + 1)

/-- `_upsert_block`: pre-dedupe early returns leave the table untouched;
otherwise the insert/on-conflict statement runs. -/
def upsert_block (db : List Block) (nextId sourceId runId : Nat)
    (item : Item) (r2Key : Option String) : Nat × List Block × Nat :=
  match preDedupe db item with
  | .ret blockId => (blockId, db, nextId)
  | .insertPath => insertOnConflict db nextId sourceId runId item r2Key

/-- `_item_already_processed`: a block with this run id and external id. -/
def item_already_processed (db : List Block) (runId : Nat) (ext : String) :
    Bool :=
  db.any fun b => b.runId == runId && b.externalId == ext

/-- `_item_exists_globally`: a block with this external id, any run. -/
def item_exists_globally (db : List Block) (ext : String) : Bool :=
  db.any fun b => b.externalId == ext

/-! ## The orchestrator loop of `run_scraper_for_url` -/

/-- Run kinds (`RunKindEnum`) relevant to the early-exit policy. -/
inductive RunKind
  | manual
  | scheduled
deriving DecidableEq, Repr

/-- `stop_on_first_old = (run_kind == RunKindEnum.scheduled) and env_flag in
('1','true','yes')` with `env_flag = os.getenv('STOP_ON_FIRST_OLD',
'true').strip().lower()`. -/
def computeStopOnFirstOld (kind : RunKind) (envFlag : String) : Bool :=
  (match kind with | .scheduled => true | .manual => false)
  && ["1", "true", "yes"].contains envFlag.trim.toLower

/-- The externally configured early-exit policy knobs, as read from the
environment at the top of the loop. -/
structure LoopCfg where
  stopOnFirstOld : Bool
  minNewBeforeBreak : Nat
  onlyOldExitStreak : Nat
  probeMinItems : Nat
deriving Repr

/-- The run counters dict (the worker also keeps a `skipped_count` local
that is updated in lockstep with `counters['skipped']`; they are one field
here). -/
structure Counters where
  found : Nat
  uploaded : Nat
  errors : Nat
  skipped : Nat
deriving DecidableEq, Repr

/-- Loop-carried state: the blocks table, the autoincrement counter, the
counters dict, `processed_count`, `consecutive_old_items` and
`seen_in_session`. -/
structure LoopSt where
  db : List Block
  nextId : Nat
  counters : Counters
  processed : Nat
  streak : Nat
  session : List String
deriving Repr

/-- Outcome of the storage call for one item (the downloaded bytes and the
store's answer are external): either a returned key or a raised error that
the per-item handler catches. -/
inductive UploadOutcome
  | ok (key : String)
  | err
deriving DecidableEq, Repr

/-- One pulled item together with the external behaviour observed while
processing it: the storage outcome (used only when a storage call is
made), the Source-status pause flag at the item boundary, and whether a
pause wait ends in resume (`True` from `_wait_for_resume`) or stop. -/
structure ItemEnv where
  item : Item
  upload : UploadOutcome := .ok "k"
  pausedAfter : Bool := false
  resumeContinue : Bool := true
deriving Repr

/-- Observable events of one run, for the pause-boundary property:
`blockPersist` is the committed `_upsert_block` write, `countersPersist`
the committed `update_run_status`, `pauseCheck` the `_check_if_paused`
observation of the Source status flag. -/
inductive Ev
  | pull
  | sessionSkip
  | runSkip
  | globalSkip
  | uploadStart
  | uploadEnd
  | blockPersist
  | countersPersist
  | pauseCheck
  | pauseEnter
  | resumeEv
  | stopEv
  | itemError
  | earlyExit
deriving DecidableEq, Repr

/-- Step outcome: continue iterating, or `break` out of the pull loop. -/
inductive StepRes
  | cont (st : LoopSt)
  | brk (st : LoopSt)
deriving Repr

/-- Whether the item processing makes a storage call: a truthy `media_url`
and a media type the dispatch uploads (`image` or `video`); any other type
leaves `r2_key = None` without touching storage. -/
def uploadAttempted (item : Item) : Bool :=
  pyTruthy item.mediaUrl
  && (item.mediaType == "image" || item.mediaType == "video")

/-- The success path of the new-item branch after the storage section:
upsert, the `is_current_run` re-check, counter update and persist, then the
pause boundary. -/
def newItemTail (runId sourceId : Nat) (st : LoopSt) (e : ItemEnv)
    (r2Key : Option String) (headEvs : List Ev) : StepRes × List Ev :=
  let res := upsert_block st.db st.nextId sourceId runId e.item r2Key
  let blockId := res.1
  let db' := res.2.1
  let isCurrentRun := db'.any fun b => b.id == blockId && b.runId == runId
  let c := st.counters
  let c :=
    if isCurrentRun then { c with uploaded := c.uploaded + 1 }
    else { c with skipped := c.skipped + 1 }
  let c := { c with found := st.processed }
  let st := { st with db := db', nextId := res.2.2, counters := c }
  if e.pausedAfter then
    if e.resumeContinue then
      (.cont st, headEvs ++ [.blockPersist, .countersPersist, .pauseCheck,
        .pauseEnter, .resumeEv])
    else
      (.brk st, headEvs ++ [.blockPersist, .countersPersist, .pauseCheck,
        .pauseEnter, .stopEv])
  else
    (.cont st, headEvs ++ [.blockPersist, .countersPersist, .pauseCheck])

/-- One iteration of the `async for item in item_iterator` body, transcribed
check by check from `run_scraper_for_url`. -/
def runStep (cfg : LoopCfg) (runId sourceId : Nat) (st : LoopSt)
    (e : ItemEnv) : StepRes × List Ev :=
  let item := e.item
  let st := { st with processed := st.processed + 1 }
  if st.session.contains item.externalId then
    (.cont st, [.pull, .sessionSkip])
  else
    let st := { st with session :=
      if item.externalId ≠ "" then st.session ++ [item.externalId]
      else st.session }
    if item_already_processed st.db runId item.externalId then
      let c := st.counters
      let st := { st with counters :=
        { c with skipped := c.skipped + 1, found := st.processed } }
      (.cont st, [.pull, .runSkip, .countersPersist])
    else if item_exists_globally st.db item.externalId then
      let c := st.counters
      let st := { st with counters :=
        { c with skipped := c.skipped + 1, found := st.processed } }
      let st := { st with streak := st.streak + 1 }
      if cfg.stopOnFirstOld && cfg.minNewBeforeBreak ≤ st.counters.uploaded
          && cfg.probeMinItems ≤ st.processed then
        (.brk st, [.pull, .globalSkip, .countersPersist, .earlyExit])
      else if cfg.onlyOldExitStreak ≤ st.streak
          && cfg.probeMinItems ≤ st.processed then
        (.brk st, [.pull, .globalSkip, .countersPersist, .earlyExit])
      else
        (.cont st, [.pull, .globalSkip, .countersPersist])
    else
      let st := { st with streak := 0 }
      if uploadAttempted item then
        match e.upload with
        | .err =>
            let c := st.counters
            (.cont { st with counters := { c with errors := c.errors + 1 } },
             [.pull, .uploadStart, .itemError, .countersPersist])
        | .ok key =>
            newItemTail runId sourceId st e (some key)
              [.pull, .uploadStart, .uploadEnd]
      else
        newItemTail runId sourceId st e none [.pull]

/-- The pull loop: returns the final state, whether it exited via `break`,
and how many items were actually pulled from the iterator. -/
def runLoop (cfg : LoopCfg) (runId sourceId : Nat) :
    LoopSt → List ItemEnv → LoopSt × Bool × Nat
  | st, [] => (st, false, 0)
  | st, e :: rest =>
      match runStep cfg runId sourceId st e with
      | (.brk st', _) => (st', true, 1)
      | (.cont st', _) =>
          let r := runLoop cfg runId sourceId st' rest
          (r.1, r.2.1, r.2.2 + 1)

/-- The event trace of the pull loop. -/
def runTrace (cfg : LoopCfg) (runId sourceId : Nat) :
    LoopSt → List ItemEnv → List Ev
  | _, [] => []
  | st, e :: rest =>
      match runStep cfg runId sourceId st e with
      | (.brk _, evs) => evs
      | (.cont st', evs) => evs ++ runTrace cfg runId sourceId st' rest

/-- The loop state at entry of `run_scraper_for_url`'s pull loop. -/
def initSt (db0 : List Block) (nextId0 : Nat) : LoopSt :=
  { db := db0, nextId := nextId0
    counters := { found := 0, uploaded := 0, errors := 0, skipped := 0 }
    processed := 0, streak := 0, session := [] }

/-- Run statuses (`RunStatusEnum`) the orchestrator writes. -/
inductive RunStatus
  | running
  | paused
  | completed
  | error
deriving DecidableEq, Repr

/-- The deterministic reconciliation just before completion: `uploaded`
becomes the count of blocks attributed to this run, `found` the exact
iterator count, and `skipped = max(0, processed_count - db_uploaded)`
(Python ints, hence the explicit clamp). -/
def reconcileCounters (runId : Nat) (db : List Block) (processedCount : Nat)
    (c : Counters) : Counters :=
  let dbUploaded := (db.filter (fun b => b.runId == runId)).length
  { c with
    uploaded := dbUploaded
    found := processedCount
    skipped := (max 0 ((processedCount : Int) - (dbUploaded : Int))).toNat }

/-- The observable result of one `run_scraper_for_url` execution. -/
structure RunResult where
  counters : Counters
  db : List Block
  status : RunStatus
  pulled : Nat
  broke : Bool
deriving Repr

/-- The per-run core of `run_scraper_for_url` after source/run resolution:
fresh counters, the pull loop, reconciliation, and the terminal `completed`
status (the `error` status is written only when an infrastructure exception
escapes the loop, which the pure model has none of; per-item failures are
handled inside the loop). -/
def run_scraper_for_url (cfg : LoopCfg) (runId sourceId : Nat)
    (db0 : List Block) (nextId0 : Nat) (envs : List ItemEnv) : RunResult :=
  let r := runLoop cfg runId sourceId (initSt db0 nextId0) envs
  let stF := r.1
  { counters := reconcileCounters runId stF.db stF.processed stF.counters
    db := stF.db
    status := .completed
    pulled := r.2.2
    broke := r.2.1 }

/-! ## Pause/resume (`_check_if_paused`, `_wait_for_resume`) -/

/-- Source statuses (`SourceStatusEnum`). -/
inductive SourceStatus
  | active
  | paused
  | completed
  | error
deriving DecidableEq, Repr

/-- Result of the resume wait: resumed, externally stopped, or the polled
observation list ran out (the Python loop would still be polling). -/
inductive ResumeOutcome
  | resumed
  | stopped
  | stillWaiting
deriving DecidableEq, Repr

/-- `_wait_for_resume` over the successive Source statuses it observes:
`active` resumes (and sets the run back to running), `completed`/`error`
stops without marking the run failed, and `paused` keeps polling. -/
def wait_for_resume : List SourceStatus → ResumeOutcome
  | [] => .stillWaiting
  | s :: rest =>
      match s with
      | .active => .resumed
      | .completed => .stopped
      | .error => .stopped
      | .paused => wait_for_resume rest

/-- A status observation that ends the wait loop. -/
def decisiveStatus : SourceStatus → Bool
  | .active => true
  | .completed => true
  | .error => true
  | .paused => false

/-- The pause-boundary safety scan: `uploadStart` opens an unfinished item,
`blockPersist` (the committed item write) closes it, and a `pauseCheck`
observed while an item is unfinished is unsafe. -/
def pauseSafe : Bool → List Ev → Bool
  | _, [] => true
  | u, e :: rest =>
      match e with
      | .uploadStart => pauseSafe true rest
      | .blockPersist => pauseSafe false rest
      | .pauseCheck => !u && pauseSafe u rest
      | _ => pauseSafe u rest

/-! ## Storage upload manager (apps/worker/app/storage/r2.py)

`upload_image` downloads the blob, hashes it with SHA-256, and derives the
key `{base_key}/original_{hash[:16]}{ext}`; thumbnails go to
`{base_key}/{size}_{hash[:16]}.jpg`.  SHA-256 is implemented concretely
below (32-bit words as `Nat` reduced mod `2^32`), so that the
content-addressing is a real function of the bytes.  The object store is a
key/value list; `put_object` overwrites.  PIL's resizing is an external
library and enters as a function parameter. -/

/-- Reduce to a 32-bit word. -/
def w32 (n : Nat) : Nat := n % 4294967296

/-- 32-bit right rotation (argument assumed < 2^32). -/
def rotr32 (k x : Nat) : Nat := w32 ((x >>> k) ||| (x <<< (32 - k)))

/-- 32-bit complement. -/
def compl32 (x : Nat) : Nat := 4294967295 ^^^ x

/-- SHA-256 choice function. -/
def sha2ch (x y z : Nat) : Nat := (x &&& y) ^^^ (compl32 x &&& z)

/-- SHA-256 majority function. -/
def sha2maj (x y z : Nat) : Nat := (x &&& y) ^^^ (x &&& z) ^^^ (y &&& z)

/-- SHA-256 big sigma 0. -/
def bsig0 (x : Nat) : Nat := rotr32 2 x ^^^ rotr32 13 x ^^^ rotr32 22 x

/-- SHA-256 big sigma 1. -/
def bsig1 (x : Nat) : Nat := rotr32 6 x ^^^ rotr32 11 x ^^^ rotr32 25 x

/-- SHA-256 small sigma 0. -/
def ssig0 (x : Nat) : Nat := rotr32 7 x ^^^ rotr32 18 x ^^^ (x >>> 3)

/-- SHA-256 small sigma 1. -/
def ssig1 (x : Nat) : Nat := rotr32 17 x ^^^ rotr32 19 x ^^^ (x >>> 10)

/-- The 64 SHA-256 round constants. -/
def sha2k : List Nat :=
  [1116352408, 1899447441, 3049323471, 3921009573,
   961987163, 1508970993, 2453635748, 2870763221,
   3624381080, 310598401, 607225278, 1426881987,
   1925078388, 2162078206, 2614888103, 3248222580,
   3835390401, 4022224774, 264347078, 604807628,
   770255983, 1249150122, 1555081692, 1996064986,
   2554220882, 2821834349, 2952996808, 3210313671,
   3336571891, 3584528711, 113926993, 338241895,
   666307205, 773529912, 1294757372, 1396182291,
   1695183700, 1986661051, 2177026350, 2456956037,
   2730485921, 2820302411, 3259730800, 3345764771,
   3516065817, 3600352804, 4094571909, 275423344,
   430227734, 506948616, 659060556, 883997877,
   958139571, 1322822218, 1537002063, 1747873779,
   1955562222, 2024104815, 2227730452, 2361852424,
   2428436474, 2756734187, 3204031479, 3329325298]

/-- The SHA-256 initial hash words. -/
def sha2h0 : List Nat :=
  [1779033703, 3144134277, 1013904242, 2773480762,
   1359893119, 2600822924, 528734635, 1541459225]

/-- Big-endian byte expansion of `n` to `k` bytes. -/
def bytesBE (k n : Nat) : List Nat :=
  (List.range k).map fun i => (n >>> (8 * (k - 1 - i))) % 256

/-- SHA-256 padding: `0x80`, zeros to 56 mod 64, 8-byte big-endian bit
length. -/
def sha256pad (msg : List Nat) : List Nat :=
  let padZeros := (64 - ((msg.length + 9) % 64)) % 64
  msg ++ [128] ++ List.replicate padZeros 0 ++ bytesBE 8 (8 * msg.length)

/-- Split a byte list into 64-byte chunks. -/
def chunks64 : List Nat → List (List Nat)
  | [] => []
  | x :: rest => ((x :: rest).take 64) :: chunks64 (rest.drop 63)
termination_by l => l.length
decreasing_by simp [List.length_drop]; omega

/-- The 16 initial 32-bit message words of one 64-byte chunk. -/
def toWords16 (chunk : List Nat) : List Nat :=
  (List.range 16).map fun i =>
    chunk.getD (4 * i) 0 * 16777216 + chunk.getD (4 * i + 1) 0 * 65536
      + chunk.getD (4 * i + 2) 0 * 256 + chunk.getD (4 * i + 3) 0

/-- Extend 16 message words to the 64-word schedule. -/
def extendWords (w0 : List Nat) : List Nat :=
  (List.range 48).foldl
    (fun w i =>
      let t := i + 16
      w ++ [w32 (w.getD (t - 16) 0 + ssig0 (w.getD (t - 15) 0)
        + w.getD (t - 7) 0 + ssig1 (w.getD (t - 2) 0))])
    w0

/-- One SHA-256 compression round on the working state `[a,...,h]`. -/
def compressRound (st : List Nat) (kw : Nat × Nat) : List Nat :=
  let a := st.getD 0 0
  let b := st.getD 1 0
  let c := st.getD 2 0
  let d := st.getD 3 0
  let e := st.getD 4 0
  let f := st.getD 5 0
  let g := st.getD 6 0
  let h := st.getD 7 0
  let t1 := w32 (h + bsig1 e + sha2ch e f g + kw.1 + kw.2)
  let t2 := w32 (bsig0 a + sha2maj a b c)
  [w32 (t1 + t2), a, b, c, w32 (d + t1), e, f, g]

/-- Process one 64-byte chunk against the current hash words. -/
def processChunk (hs : List Nat) (chunk : List Nat) : List Nat :=
  let st := (sha2k.zip (extendWords (toWords16 chunk))).foldl compressRound hs
  (List.range 8).map fun i => w32 (hs.getD i 0 + st.getD i 0)

/-- SHA-256 of a byte list, as the final eight 32-bit words. -/
def sha256words (msg : List Nat) : List Nat :=
  (chunks64 (sha256pad msg)).foldl processChunk sha2h0

/-- Lowercase hex digit. -/
def hexDigitChar (n : Nat) : Char :=
  if n < 10 then Char.ofNat (48 + n) else Char.ofNat (87 + n)

/-- Lowercase 8-hex-digit rendering of a 32-bit word. -/
def hex8 (n : Nat) : List Char :=
  (List.range 8).map fun i => hexDigitChar ((n >>> (4 * (7 - i))) % 16)

/-- `hashlib.sha256(data).hexdigest()`. -/
def sha256hex (msg : List Nat) : String :=
  String.mk ((sha256words msg).map hex8).flatten

/-- `_get_file_extension`: the path component of `urlparse(url)` for an
http(s) URL (query and fragment stripped; for a URL with `://` the path
starts at the first `/` after the authority). -/
def urlPathChars (u : String) : List Char :=
  let cs := (u.toList.takeWhile (· ≠ '#')).takeWhile (· ≠ '?')
  let rec afterProto : List Char → Option (List Char)
    | [] => none
    | ':' :: '/' :: '/' :: rest => some rest
    | _ :: rest => afterProto rest
  match afterProto cs with
  | some rest => rest.dropWhile (· ≠ '/')
  | none => cs

/-- `_get_file_extension` proper: lowercase the path, test the known
extensions, default to `.jpg`. -/
def get_file_extension (url : String) : String :=
  let path := String.mk ((urlPathChars url).map Char.toLower)
  if path.endsWith ".jpg" || path.endsWith ".jpeg" then ".jpg"
  else if path.endsWith ".png" then ".png"
  else if path.endsWith ".gif" then ".gif"
  else if path.endsWith ".webp" then ".webp"
  else if path.endsWith ".mp4" then ".mp4"
  else if path.endsWith ".webm" then ".webm"
  else ".jpg"

/-- The object store: keys to byte lists. -/
abbrev R2Store := List (String × List Nat)

/-- `put_object`: overwrite-safe write. -/
def r2put (store : R2Store) (key : String) (body : List Nat) : R2Store :=
  (key, body) :: store.filter (fun kv => kv.1 ≠ key)

/-- `upload_file`: the existence pre-check is commented out in the source
(skipped deliberately to avoid HeadObject permission errors), so the put is
unconditional; the retry loop only repeats the same put on transient
clock-skew errors and does not change the returned key. -/
def upload_file (store : R2Store) (key : String) (body : List Nat) :
    String × R2Store :=
  (key, r2put store key body)

/-- `upload_image`: hash the downloaded bytes, upload the original under
`{base_key}/original_{hash[:16]}{ext}`, then the four derived thumbnails
(non-fatal in the source; `pilThumb` stands for PIL's resize+JPEG
encoding). Returns the original key. -/
def upload_image (pilThumb : Nat → List Nat → List Nat) (store : R2Store)
    (imageData : List Nat) (imageUrl baseKey : String) : String × R2Store :=
  let contentHash := (sha256hex imageData).take 16
  let ext := get_file_extension imageUrl
  let originalKey := baseKey ++ "/original_" ++ contentHash ++ ext
  let r := upload_file store originalKey imageData
  let sizes : List (String × Nat) :=
    [("thumb", 150), ("small", 300), ("medium", 600), ("large", 1200)]
  let store2 := sizes.foldl
    (fun s p =>
      (upload_file s (baseKey ++ "/" ++ p.1 ++ "_" ++ contentHash ++ ".jpg")
        (pilThumb p.2 imageData)).2)
    r.2
  (r.1, store2)

/-- `upload_video`: video under `{base_key}/video_{hash[:16]}{ext}`, an
optional poster (derived from the supplied poster bytes, non-fatal) under
`{base_key}/poster_{hash[:16]}.jpg`.  Returns the video key. -/
def upload_video (pilPoster : List Nat → List Nat) (store : R2Store)
    (videoData : List Nat) (videoUrl baseKey : String)
    (posterData : Option (List Nat)) : String × R2Store :=
  let contentHash := (sha256hex videoData).take 16
  let ext := get_file_extension videoUrl
  let videoKey := baseKey ++ "/video_" ++ contentHash ++ ext
  let r := upload_file store videoKey videoData
  let store2 :=
    match posterData with
    | some img =>
        (upload_file r.2 (baseKey ++ "/poster_" ++ contentHash ++ ".jpg")
          (pilPoster img)).2
    | none => r.2
  (videoKey, store2)

/-! ## Job dispatcher (apps/worker/runner.py)

```python
while True:
    runs = _fetch_pending()
    if runs:
        for r in runs[:MAX_PARALLEL]:
            code = _run_job(r)
            if code != 0:
                _log(f"job failed with code {code}")
                # continue to next, do not exit
    else:
        _log("no pending runs; sleeping")
    time.sleep(POLL_INTERVAL_SEC)
```

One sweep of the supervisory loop is modelled; the subprocess exit code is
external and enters as a function of the run descriptor.  `_run_job`
returns 0 without spawning when the descriptor has no url. -/

/-- A pending run descriptor from the scheduling service. -/
structure RunDesc where
  runId : Nat
  url : String
  maxItems : Nat
deriving DecidableEq, Repr

/-- Dispatcher events: a subprocess spawn, or the failure log line. -/
inductive RunnerEv
  | jobStart (r : RunDesc)
  | jobFailed (r : RunDesc) (code : Int)
deriving DecidableEq, Repr

/-- One sweep of `main`'s inner loop over the fetched pending runs. -/
def runner_sweep (maxParallel : Nat) (exitCode : RunDesc → Int)
    (runs : List RunDesc) : List RunnerEv :=
  ((runs.take maxParallel).map fun r =>
    if r.url = "" then []
    else
      [RunnerEv.jobStart r]
        ++ (if exitCode r ≠ 0 then [RunnerEv.jobFailed r (exitCode r)]
            else [])).flatten

/-- The run descriptors actually spawned during a sweep, in order. -/
def startedRuns (evs : List RunnerEv) : List RunDesc :=
  evs.filterMap fun e =>
    match e with
    | .jobStart r => some r
    | _ => none

/-! ## Item-link discovery (apps/worker/app/scraper/savee.py) -/

/-- The `[A-Za-z0-9_-]` character class of the item-id patterns. -/
def isIdChar (c : Char) : Bool :=
  ('A' ≤ c && c ≤ 'Z') || ('a' ≤ c && c ≤ 'z') || ('0' ≤ c && c ≤ '9')
  || c = '_' || c = '-'

/-- `is_valid_item_id`: rejects the junk literals and anything not fully
matching `[A-Za-z0-9_-]{5,24}`. -/
def is_valid_item_id (s : String) : Bool :=
  if ["undefined", "null", "None", ""].contains s then false
  else
    let cs := s.toList
    cs.all isIdChar && 5 ≤ cs.length && cs.length ≤ 24

/-- A quote character as matched by the `['\"]` classes. -/
def isQuote (c : Char) : Bool := c = '\'' || c = '"'

/-- `re.finditer` over a character list: try the pattern at each position
left to right, skip positions inside an already-returned match.  `attempt`
returns the captured group and the full match length at a given suffix. -/
def scanPositions (attempt : List Char → Option (List Char × Nat))
    (l : List Char) : List (List Char) :=
  ((List.range l.length).foldl
    (fun st pos =>
      if pos < st.1 then st
      else
        match attempt (l.drop pos) with
        | some (grp, mlen) => (pos + mlen, st.2 ++ [grp])
        | none => st)
    ((0 : Nat), ([] : List (List Char)))).2

/-- The pattern `/i/([A-Za-z0-9_-]+)` at one position (the trailing `/?` of
the search variant does not affect the group). -/
def attemptRawId : List Char → Option (List Char × Nat)
  | '/' :: 'i' :: '/' :: rest =>
      let run := rest.takeWhile isIdChar
      if run.isEmpty then none else some (run, 3 + run.length)
  | _ => none

/-- `extract_item_id_from_url`: the leftmost `/i/<id>` match, validated. -/
def extract_item_id_from_url (url : String) : Option String :=
  match (scanPositions attemptRawId url.toList).head? with
  | none => none
  | some run =>
      let id := String.mk run
      if is_valid_item_id id then some id else none

/-- The pattern `id=['\"]grid-item-([A-Za-z0-9_-]+)['\"]` at one position
(the two quotes are independent character classes). -/
def attemptGridId (cs : List Char) : Option (List Char × Nat) :=
  match cs with
  | 'i' :: 'd' :: '=' :: q :: rest =>
      if isQuote q && "grid-item-".toList.isPrefixOf rest then
        let run := (rest.drop 10).takeWhile isIdChar
        match (rest.drop 10).drop run.length with
        | c :: _ =>
            if !run.isEmpty && isQuote c then some (run, 15 + run.length)
            else none
        | [] => none
      else none
  | _ => none

/-- The alternation `href=\"(/i/[A-Za-z0-9_-]+[^\"]*)\"` |
`href='(/i/[A-Za-z0-9_-]+[^']*)'` at one position: after `href=` and the
quote, the group requires `/i/` plus at least one id character and then
(greedily) runs to the character before the next closing quote, which must
exist. -/
def attemptHref (cs : List Char) : Option (List Char × Nat) :=
  match cs with
  | 'h' :: 'r' :: 'e' :: 'f' :: '=' :: q :: rest =>
      if isQuote q then
        match rest with
        | '/' :: 'i' :: '/' :: r2 =>
            if (r2.takeWhile isIdChar).isEmpty then none
            else
              let body := rest.takeWhile (· ≠ q)
              if body.length < rest.length then some (body, 7 + body.length)
              else none
        | _ => none
      else none
  | _ => none

/-- Pass 3 candidates: `id="grid-item-<ID>"` occurrences in order. -/
def gridIds (html : List Char) : List String :=
  (scanPositions attemptGridId html).map String.mk

/-- Pass 4 candidates: href-based relative links in order. -/
def hrefRels (html : List Char) : List String :=
  (scanPositions attemptHref html).map String.mk

/-- Pass 5 candidates: raw `/i/<id>` text occurrences in order. -/
def rawIdRuns (html : List Char) : List String :=
  (scanPositions attemptRawId html).map String.mk

/-- The seen-set insertion of `_find_item_links_in_html` (the Python
`seen_ids` set always holds exactly the ids already in `ordered_ids`, so
membership is checked on the collected list). -/
def insertValidated (o : List String) (id : String) : List String :=
  if is_valid_item_id id && !o.contains id then o ++ [id] else o

/-- The seen-set insertion for the link passes (2 and 4): the extracted id
is appended when truthy and unseen (`if maybe and maybe not in seen`). -/
def insertExtracted (o : List String) (href : String) : List String :=
  match extract_item_id_from_url href with
  | some id => if id ≠ "" && !o.contains id then o ++ [id] else o
  | none => o

/-- The ordered, de-duplicated item ids of `_find_item_links_in_html`.
`parsedIds` and `parsedLinks` stand for the results of
`_parse_ids_from_data_attribute` and `_parse_links_from_data_attribute`
(html-attribute JSON decoding through the `json`/`urllib` standard
libraries; `None` on any parse failure, `or []` at the call site). -/
def itemIdsOf (parsedIds parsedLinks : Option (List String))
    (html : List Char) : List String :=
  let o := (parsedIds.getD []).foldl insertValidated []
  let o := (parsedLinks.getD []).foldl insertExtracted o
  let o := (gridIds html).foldl insertValidated o
  let o := (hrefRels html).foldl insertExtracted o
  (rawIdRuns html).foldl insertValidated o

/-- `_find_item_links_in_html`: the final URLs in discovered order. -/
def find_item_links_in_html (parsedIds parsedLinks : Option (List String))
    (html itemBaseUrl : String) : List String :=
  (itemIdsOf parsedIds parsedLinks html.toList).map
    fun id => itemBaseUrl ++ "/i/" ++ id ++ "/"

/-- First-occurrence de-duplication, the specification-side description of
the seen-set fold. -/
def firstOccur (l : List String) : List String :=
  l.foldl (fun acc x => if acc.contains x then acc else acc ++ [x]) []

/-- The extracted-and-truthy candidate of passes 2 and 4, specification
side. -/
def extractTruthy (href : String) : Option String :=
  match extract_item_id_from_url href with
  | some id => if id ≠ "" then some id else none
  | none => none

/-- The concatenated validated candidate stream across the five passes, in
pass order. -/
def candidateStream (parsedIds parsedLinks : Option (List String))
    (html : List Char) : List String :=
  (parsedIds.getD []).filter is_valid_item_id
    ++ (parsedLinks.getD []).filterMap extractTruthy
    ++ (gridIds html).filter is_valid_item_id
    ++ (hrefRels html).filterMap extractTruthy
    ++ (rawIdRuns html).filter is_valid_item_id

/-! ## Auxiliary definitions used to state the theorems -/

/-- The state carried out of a step, whether it continued or broke. -/
def stepState : StepRes → LoopSt
  | .cont st => st
  | .brk st => st

/-- A metadata-only item: no media and no fingerprintable URLs.  Such items
make no storage call and no dedupe URL conditions. -/
def plainItem (it : Item) : Bool :=
  it.mediaUrl == none && it.imageUrl == none && it.videoUrl == none
  && it.thumbnailUrl == none && it.ogImageUrl == none

/-- Wrap items in the quiet external environment: storage succeeds and the
pause flag is never observed raised. -/
def plainEnvs (items : List Item) : List ItemEnv :=
  items.map fun it => { item := it }

/-- The blocks inserted for a list of fresh metadata-only items, with
consecutive autoincrement ids. -/
def insertedBlocks (nextId sourceId runId : Nat) : List Item → List Block
  | [] => []
  | it :: rest =>
      newBlock nextId sourceId runId it none
        :: insertedBlocks (nextId + 1) sourceId runId rest

/-- First-occurrence de-duplication continued from an accumulator. -/
def dedupInto (o : List String) (s : List String) : List String :=
  s.foldl (fun acc x => if acc.contains x then acc else acc ++ [x]) o

/-- The run/source attribution (and identity) of a block: everything the
upsert conflict clause must not touch. -/
def blockAttrib (b : Block) : Nat × String × Nat × Nat :=
  (b.id, b.externalId, b.sourceId, b.runId)

/-- The state after skipping one globally-known item (with a non-empty
external id not yet seen this session): pull counted, session extended,
skip counters persisted, streak incremented. -/
def knownSkipSt (st : LoopSt) (e : ItemEnv) : LoopSt :=
  { st with
    processed := st.processed + 1
    session := st.session ++ [e.item.externalId]
    counters := { st.counters with
      skipped := st.counters.skipped + 1, found := st.processed + 1 }
    streak := st.streak + 1 }

/-- The state after fully processing one fresh metadata-only item: streak
reset, block inserted and attributed to this run, `uploaded` incremented. -/
def newPlainSt (runId sourceId : Nat) (st : LoopSt) (e : ItemEnv) : LoopSt :=
  { st with
    processed := st.processed + 1
    session := st.session ++ [e.item.externalId]
    streak := 0
    db := st.db ++ [newBlock st.nextId sourceId runId e.item none]
    nextId := st.nextId + 1
    counters := { st.counters with
      uploaded := st.counters.uploaded + 1, found := st.processed + 1 } }

/-- The state after a new item whose storage upload raised a permanent
error: streak reset, error counted, nothing persisted for the item. -/
def uploadErrorSt (st : LoopSt) (e : ItemEnv) : LoopSt :=
  { st with
    processed := st.processed + 1
    session := st.session ++ [e.item.externalId]
    streak := 0
    counters := { st.counters with errors := st.counters.errors + 1 } }

/-- The loop state after a fresh run has processed a nonempty prefix of
fresh metadata-only items. -/
def phase1St (db0 : List Block) (nextId0 runId sourceId : Nat)
    (news : List Item) : LoopSt :=
  { db := db0 ++ insertedBlocks nextId0 sourceId runId news
    nextId := nextId0 + news.length
    counters := { found := 0 + news.length, uploaded := 0 + news.length,
                  errors := 0, skipped := 0 }
    processed := 0 + news.length
    streak := 0
    session := [] ++ news.map Item.externalId }

/-! ## Generic lemmas about the pull loop -/

/-- The tail of the new-item branch never touches `processed_count`. -/
theorem newItemTail_processed (runId sourceId : Nat) (st : LoopSt)
    (e : ItemEnv) (r2Key : Option String) (headEvs : List Ev) :
    (stepState (newItemTail runId sourceId st e r2Key headEvs).1).processed
      = st.processed := by
  unfold newItemTail
  dsimp only
  split
  · split <;> rfl
  · rfl

/-- Every step consumes exactly one item from the iterator:
`processed_count` is incremented once, at the top, on every path. -/
theorem runStep_processed (cfg : LoopCfg) (runId sourceId : Nat)
    (st : LoopSt) (e : ItemEnv) :
    (stepState (runStep cfg runId sourceId st e).1).processed
      = st.processed + 1 := by
  unfold runStep
  dsimp only
  split
  · rfl
  · split
    · rfl
    · split
      · split
        · rfl
        · split
          · rfl
          · rfl
      · split
        · split
          · rfl
          · exact newItemTail_processed ..
        · exact newItemTail_processed ..

/-- After the loop, `processed_count` counts exactly the consumed items. -/
theorem runLoop_processed (cfg : LoopCfg) (runId sourceId : Nat) :
    ∀ (l : List ItemEnv) (st : LoopSt),
      (runLoop cfg runId sourceId st l).1.processed
        = st.processed + (runLoop cfg runId sourceId st l).2.2 := by
  intro l
  induction l with
  | nil => intro st; simp [runLoop]
  | cons e rest ih =>
      intro st
      have hp := runStep_processed cfg runId sourceId st e
      simp only [runLoop]
      rcases hstep : runStep cfg runId sourceId st e with ⟨res, evs⟩
      rw [hstep] at hp
      cases res with
      | brk st' => simpa [stepState] using hp
      | cont st' =>
          simp only [stepState] at hp
          dsimp only
          rw [ih st', hp]
          omega

/-- Once the loop has exited via `break`, appending further iterator output
changes nothing: those items are never pulled. -/
theorem runLoop_break_stable (cfg : LoopCfg) (runId sourceId : Nat) :
    ∀ (l1 l2 : List ItemEnv) (st : LoopSt),
      (runLoop cfg runId sourceId st l1).2.1 = true →
      runLoop cfg runId sourceId st (l1 ++ l2)
        = runLoop cfg runId sourceId st l1 := by
  intro l1
  induction l1 with
  | nil => intro l2 st h; simp [runLoop] at h
  | cons e rest ih =>
      intro l2 st h
      simp only [runLoop, List.cons_append] at *
      rcases hstep : runStep cfg runId sourceId st e with ⟨res, evs⟩
      rw [hstep] at h
      cases res with
      | brk st' => rfl
      | cont st' =>
          dsimp only at h ⊢
          simp only [List.append_eq]
          rw [ih l2 st' (by
            rcases hr : runLoop cfg runId sourceId st' rest with ⟨a, b, c⟩
            rw [hr] at h; simpa using h)]

/-- A loop over a concatenation, when the first part runs through without
breaking, continues into the second part from the intermediate state. -/
theorem runLoop_append_cont (cfg : LoopCfg) (runId sourceId : Nat) :
    ∀ (l1 l2 : List ItemEnv) (st : LoopSt),
      (runLoop cfg runId sourceId st l1).2.1 = false →
      runLoop cfg runId sourceId st (l1 ++ l2)
        = ((runLoop cfg runId sourceId (runLoop cfg runId sourceId st l1).1 l2).1,
           (runLoop cfg runId sourceId (runLoop cfg runId sourceId st l1).1 l2).2.1,
           (runLoop cfg runId sourceId st l1).2.2
             + (runLoop cfg runId sourceId (runLoop cfg runId sourceId st l1).1 l2).2.2) := by
  intro l1
  induction l1 with
  | nil => intro l2 st _; simp [runLoop]
  | cons e rest ih =>
      intro l2 st h
      simp only [runLoop, List.cons_append] at *
      rcases hstep : runStep cfg runId sourceId st e with ⟨res, evs⟩
      rw [hstep] at h
      cases res with
      | brk st' => simp at h
      | cont st' =>
          dsimp only at h ⊢
          simp only [List.append_eq]
          rw [ih l2 st' (by
            rcases hr : runLoop cfg runId sourceId st' rest with ⟨a, b, c⟩
            rw [hr] at h; simpa using h)]
          rcases hr : runLoop cfg runId sourceId st' rest with ⟨a, b, c⟩
          simp
          omega

/-! ## C1 — counter reconciliation at completion -/

/-- C1, counterexample to the claim as stated.  A reused (resumed) run id
may already own blocks from its earlier invocation; when the extractor then
yields nothing, reconciliation produces `found = 0`, `uploaded = 2` and
`skipped = 0`, while the claimed `skipped = found - uploaded` would be
negative: the source clamps with `max(0, ...)`. -/
theorem claim_C1_counterexample :
    let db0 : List Block :=
      [{ id := 1, externalId := "aaaaa", sourceId := 1, runId := 5,
         imageUrl := none, videoUrl := none, thumbnailUrl := none,
         ogImageUrl := none, r2Key := none, status := .scraped,
         title := "", description := "" },
       { id := 2, externalId := "bbbbb", sourceId := 1, runId := 5,
         imageUrl := none, videoUrl := none, thumbnailUrl := none,
         ogImageUrl := none, r2Key := none, status := .scraped,
         title := "", description := "" }]
    let R := run_scraper_for_url
      { stopOnFirstOld := false, minNewBeforeBreak := 1, onlyOldExitStreak := 8, probeMinItems := 48 } 5 1 db0 3 []
    R.counters.uploaded = 2 ∧ R.counters.found = 0 ∧ R.counters.skipped = 0
      ∧ (R.counters.skipped : Int)
          ≠ (R.counters.found : Int) - (R.counters.uploaded : Int) := by
  decide

/-- C1 (amended): at termination the counters are reconciled against the
store — `uploaded` equals the count of blocks attributed to the run,
`found` equals the number of items actually pulled from the extractor in
this invocation, and `skipped = max(0, found - uploaded)` (which equals
`found - uploaded` whenever `uploaded ≤ found`). -/
theorem claim_C1_reconciliation (cfg : LoopCfg) (runId sourceId : Nat)
    (db0 : List Block) (nextId0 : Nat) (envs : List ItemEnv) :
    (run_scraper_for_url cfg runId sourceId db0 nextId0 envs).counters.uploaded
        = ((run_scraper_for_url cfg runId sourceId db0 nextId0 envs).db.filter
            (fun b => b.runId == runId)).length
      ∧ (run_scraper_for_url cfg runId sourceId db0 nextId0 envs).counters.found
          = (run_scraper_for_url cfg runId sourceId db0 nextId0 envs).pulled
      ∧ ((run_scraper_for_url cfg runId sourceId db0 nextId0 envs).counters.skipped : Int)
          = max 0
              (((run_scraper_for_url cfg runId sourceId db0 nextId0 envs).counters.found : Int)
                - ((run_scraper_for_url cfg runId sourceId db0 nextId0 envs).counters.uploaded : Int)) := by
  refine ⟨rfl, ?_, ?_⟩
  · have hp := runLoop_processed cfg runId sourceId envs (initSt db0 nextId0)
    simp only [run_scraper_for_url, reconcileCounters]
    simpa [initSt] using hp
  · simp only [run_scraper_for_url, reconcileCounters]
    exact Int.toNat_of_nonneg (le_max_left 0 _)

/-! ## C5 — content-addressed, idempotent uploads -/

/-- C5: the storage key returned by `upload_image` is the deterministic
function `{base_key}/original_{sha256(bytes)[:16]}{ext}` of the blob bytes
and the logical key; it does not depend on the current store contents (no
pre-upload existence check), so uploading identical content twice — in
particular re-uploading over the store state the first upload produced —
returns the same key both times. -/
theorem claim_C5_idempotent_upload (pilThumb : Nat → List Nat → List Nat)
    (store store' : R2Store) (imageData : List Nat) (imageUrl baseKey : String) :
    (upload_image pilThumb store imageData imageUrl baseKey).1
        = baseKey ++ "/original_" ++ (sha256hex imageData).take 16
            ++ get_file_extension imageUrl
      ∧ (upload_image pilThumb store imageData imageUrl baseKey).1
          = (upload_image pilThumb store' imageData imageUrl baseKey).1
      ∧ (upload_image pilThumb
            (upload_image pilThumb store imageData imageUrl baseKey).2
            imageData imageUrl baseKey).1
          = (upload_image pilThumb store imageData imageUrl baseKey).1 := by
  exact ⟨rfl, rfl, rfl⟩

/-! ## C7 — the dispatcher does not retry failed runs -/

/-- C7, counterexample to the claim as stated: a failing run is attempted
exactly once — the dispatcher emits the failure log line and moves straight
on to the next pending run.  No retry attempt and no backoff occur. -/
theorem claim_C7_counterexample :
    let r1 : RunDesc := { runId := 1, url := "https://savee.com/u1", maxItems := 0 }
    let r2 : RunDesc := { runId := 2, url := "https://savee.com/u2", maxItems := 0 }
    let f : RunDesc → Int := fun r => if r.runId = 1 then 1 else 0
    runner_sweep 2 f [r1, r2]
        = [.jobStart r1, .jobFailed r1 1, .jobStart r2]
      ∧ (startedRuns (runner_sweep 2 f [r1, r2])).count r1 = 1 := by
  decide

/-- C7 (amended): on a non-zero exit the dispatcher logs the failure and
proceeds to the next pending run without retrying; the set of runs spawned
in a sweep — each pending descriptor with a url, up to the concurrency cap,
exactly once and in order — is independent of the exit codes, so no
failure terminates or truncates the sweep. -/
theorem claim_C7_no_retry (maxParallel : Nat) (f g : RunDesc → Int)
    (runs : List RunDesc) :
    startedRuns (runner_sweep maxParallel f runs)
        = (runs.take maxParallel).filter (fun r => r.url ≠ "")
      ∧ startedRuns (runner_sweep maxParallel f runs)
          = startedRuns (runner_sweep maxParallel g runs) := by
  have key : ∀ (h : RunDesc → Int) (l : List RunDesc),
      startedRuns (runner_sweep maxParallel h l)
        = (l.take maxParallel).filter (fun r => r.url ≠ "") := by
    intro h l
    unfold runner_sweep startedRuns
    generalize l.take maxParallel = t
    induction t with
    | nil => rfl
    | cons r rest ih =>
        simp only [List.map_cons, List.flatten_cons, List.filterMap_append,
          List.filter_cons]
        rw [ih]
        by_cases hu : r.url = ""
        · simp [hu]
        · by_cases hc : h r = 0 <;> simp [hu, hc]
  exact ⟨key f runs, (key f runs).trans (key g runs).symm⟩

/-! ## C3 — the fuzzy asset fingerprint -/

/-- Unfolding of the run splitter while inside a run. -/
theorem hexRunsAux_ne (l : List Char) : ∀ (acc : List Char), acc ≠ [] →
    hexRunsAux acc l
      = (acc.reverse ++ l.takeWhile isHexChar)
          :: hexRunsAux [] ((l.dropWhile isHexChar).drop 1) := by
  induction l with
  | nil =>
      intro acc hacc
      simp [hexRunsAux, List.isEmpty_iff, hacc]
  | cons c rest ih =>
      intro acc hacc
      by_cases hc : isHexChar c
      · simp only [hexRunsAux, hc, if_true, List.takeWhile_cons, List.dropWhile_cons]
        rw [ih (c :: acc) (by simp)]
        simp
      · simp [hexRunsAux, hc, List.isEmpty_iff, hacc, List.takeWhile_cons,
          List.dropWhile_cons]

/-- One unfolding step of `hexRuns`. -/
theorem hexRuns_cons (c : Char) (rest : List Char) :
    hexRuns (c :: rest)
      = if isHexChar c then
          ((c :: rest).takeWhile isHexChar)
            :: hexRuns (((c :: rest).dropWhile isHexChar).drop 1)
        else hexRuns rest := by
  by_cases hc : isHexChar c
  · show hexRunsAux [] (c :: rest) = _
    simp only [hexRunsAux, hc, if_true]
    rw [hexRunsAux_ne rest [c] (by simp)]
    simp [hexRuns, List.takeWhile_cons, List.dropWhile_cons, hc]
  · simp [hexRuns, hexRunsAux, hc]

/-- One unfolding step of the scanner. -/
theorem findHexRun_cons (c : Char) (rest : List Char) :
    findHexRun (c :: rest)
      = if 10 ≤ ((c :: rest).takeWhile isHexChar).length then
          some ((c :: rest).takeWhile isHexChar)
        else findHexRun rest := rfl

/-- When the run at the head is too short, the scanner skips past it: no
position inside the run, nor the non-hex boundary, can start a match. -/
theorem findHexRun_skip : ∀ (l : List Char),
    (l.takeWhile isHexChar).length < 10 →
    findHexRun l = findHexRun ((l.dropWhile isHexChar).drop 1) := by
  intro l
  induction l with
  | nil => intro _; rfl
  | cons c rest ih =>
      intro hlen
      rw [findHexRun_cons, if_neg (by omega)]
      by_cases hc : isHexChar c
      · rw [List.takeWhile_cons_of_pos hc] at hlen
        simp only [List.length_cons] at hlen
        rw [List.dropWhile_cons_of_pos hc]
        exact ih (by omega)
      · rw [List.dropWhile_cons_of_neg hc]
        simp

/-- The scanning recursion of the source equals "first maximal hex run of
length at least 10", the amended reading of the spec sentence. -/
theorem findHexRun_eq_find (l : List Char) :
    findHexRun l = (hexRuns l).find? (fun r => 10 ≤ r.length) := by
  have key : ∀ (n : Nat) (l : List Char), l.length ≤ n →
      findHexRun l = (hexRuns l).find? (fun r => 10 ≤ r.length) := by
    intro n
    induction n with
    | zero =>
        intro l hl
        have : l = [] := List.length_eq_zero.mp (Nat.le_zero.mp hl)
        subst this; rfl
    | succ n ih =>
        intro l hl
        cases l with
        | nil => rfl
        | cons c rest =>
            rw [hexRuns_cons]
            by_cases hc : isHexChar c
            · rw [if_pos hc]
              by_cases h10 : 10 ≤ ((c :: rest).takeWhile isHexChar).length
              · rw [List.find?_cons_of_pos _ (by simpa using h10),
                  findHexRun_cons, if_pos h10]
              · rw [List.find?_cons_of_neg _ (by simpa using h10)]
                rw [findHexRun_skip (c :: rest) (by omega)]
                apply ih
                have h1 : ((c :: rest).dropWhile isHexChar).length ≤ rest.length := by
                  rw [List.dropWhile_cons_of_pos hc]
                  exact (List.dropWhile_sublist _).length_le
                have h2 : (((c :: rest).dropWhile isHexChar).drop 1).length
                    ≤ ((c :: rest).dropWhile isHexChar).length := by
                  simp [List.length_drop]
                simp only [List.length_cons] at hl
                omega
            · rw [if_neg hc]
              rw [findHexRun_cons, List.takeWhile_cons_of_neg hc]
              rw [if_neg (by simp)]
              apply ih
              simp only [List.length_cons] at hl
              omega
  exact key l.length l le_rfl

/-- A prefix of fingerprints with no fuzzy matches is skipped. -/
theorem fuzzyLoop_append_nil (db : List Block) :
    ∀ (pre rest : List String), (∀ g ∈ pre, db.filter (fuzzyMatched g) = []) →
    fuzzyLoop db (pre ++ rest) = fuzzyLoop db rest := by
  intro pre
  induction pre with
  | nil => intro rest _; rfl
  | cons g pre' ih =>
      intro rest h
      show fuzzyLoop db (g :: (pre' ++ rest)) = _
      simp only [fuzzyLoop]
      rw [h g (by simp)]
      exact ih rest fun g' hg' => h g' (by simp [hg'])

/-- C3, counterexample to the claim as stated: the source computes the
fingerprint with `re.search("[0-9a-fA-F]{10,}")`, which yields the
*leftmost* hex run of length ≥ 10, not the *longest*.  In this filename the
leftmost qualifying run has 10 characters and a later run has 16; the code
picks the former, the claimed recipe the latter. -/
theorem claim_C3_counterexample :
    asset_fp (some "https://x.com/ab01ab01ab_0123456789abcdef.jpg")
        = some "ab01ab01ab"
      ∧ assetFpSpecLongest (some "https://x.com/ab01ab01ab_0123456789abcdef.jpg")
          = some "0123456789abcdef"
      ∧ asset_fp (some "https://x.com/ab01ab01ab_0123456789abcdef.jpg")
          ≠ assetFpSpecLongest
              (some "https://x.com/ab01ab01ab_0123456789abcdef.jpg") := by
  refine ⟨by decide, by decide, by decide⟩

/-- C3 (amended): the fingerprint is computed by stripping the query
string, taking the last path segment, stripping the known size/variant
prefixes, stripping the file extension, and extracting the *leftmost*
maximal hex run of at least 10 hex characters if one is present, else using
the remaining filename, lowercased (`asset_fp = assetFpLeftmost`
definitionally spells out that recipe); and when the exact-match stage
misses and some fingerprint of the candidate matches exactly one stored
record — under the `ILIKE '%fp%'` query semantics, case-insensitive with
`_`/`%` inside the fingerprint acting as SQL wildcards — on the URL
columns, earlier fingerprints matching nothing, that record is returned as
the same logical item and no new record is created. -/
theorem claim_C3_asset_fingerprint :
    (∀ u, asset_fp u = assetFpLeftmost u)
      ∧ (∀ (db : List Block) (nextId sourceId runId : Nat) (item : Item)
          (r2Key : Option String) (pre post : List String) (fp : String)
          (b : Block),
          db.filter (exactMatched item) = [] →
          assetFps item = pre ++ fp :: post →
          (∀ g ∈ pre, db.filter (fuzzyMatched g) = []) →
          db.filter (fuzzyMatched fp) = [b] →
          b.id ≠ 0 →
          upsert_block db nextId sourceId runId item r2Key
            = (b.id, db, nextId)) := by
  constructor
  · intro u
    cases u with
    | none => rfl
    | some s =>
        show asset_fp (some s) = assetFpLeftmost (some s)
        unfold asset_fp assetFpLeftmost
        dsimp only
        rw [findHexRun_eq_find]
  · intro db nextId sourceId runId item r2Key pre post fp b hexact hsplit hpre hfp hid
    unfold upsert_block preDedupe
    rw [hexact]
    dsimp only
    rw [hsplit, fuzzyLoop_append_nil db pre (fp :: post) hpre]
    unfold fuzzyLoop
    rw [hfp]
    simp [hid]

/-- C3, witness: a concrete candidate whose image URL fingerprint matches
a stored record's image URL under the `ILIKE` query (here the fingerprint
is pure hex, so the match is plain case-insensitive containment); the
upsert returns that record and leaves the table unchanged.  The two extra
conjuncts exhibit the wildcard semantics of the match predicate itself: an
`_` inside a fallback fingerprint matches any single character, not only a
literal underscore. -/
theorem claim_C3_witness :
    asset_fp (some "https://cdn/a/original_abcdef1234567890.png")
        = assetFpLeftmost (some "https://cdn/a/original_abcdef1234567890.png")
      ∧ ilikeContains "my_photo" (some "https://cdn/MYxPHOTO.jpg") = true
      ∧ ilikeContains "my_photo" (some "https://cdn/myphoto.jpg") = false
      ∧ upsert_block
          [{ id := 3, externalId := "other55", sourceId := 9, runId := 4,
             imageUrl := some "https://cdn2/z/large_ABCDEF1234567890.webp",
             videoUrl := none, thumbnailUrl := none, ogImageUrl := none,
             r2Key := none, status := .scraped, title := "", description := "" }]
          10 1 2
          { externalId := "itemX9",
            imageUrl := some "https://cdn/a/original_abcdef1234567890.png" }
          (some "key")
        = (3,
           [{ id := 3, externalId := "other55", sourceId := 9, runId := 4,
              imageUrl := some "https://cdn2/z/large_ABCDEF1234567890.webp",
              videoUrl := none, thumbnailUrl := none, ogImageUrl := none,
              r2Key := none, status := .scraped, title := "", description := "" }],
           10) := by
  refine ⟨claim_C3_asset_fingerprint.1 _, by decide, by decide, ?_⟩
  exact claim_C3_asset_fingerprint.2
      [{ id := 3, externalId := "other55", sourceId := 9, runId := 4,
         imageUrl := some "https://cdn2/z/large_ABCDEF1234567890.webp",
         videoUrl := none, thumbnailUrl := none, ogImageUrl := none,
         r2Key := none, status := .scraped, title := "", description := "" }]
      10 1 2
      { externalId := "itemX9",
        imageUrl := some "https://cdn/a/original_abcdef1234567890.png" }
      (some "key") [] [] "abcdef1234567890"
      { id := 3, externalId := "other55", sourceId := 9, runId := 4,
        imageUrl := some "https://cdn2/z/large_ABCDEF1234567890.webp",
        videoUrl := none, thumbnailUrl := none, ogImageUrl := none,
        r2Key := none, status := .scraped, title := "", description := "" }
      (by decide) (by decide) (by intro g hg; simp at hg) (by decide)
      (by decide)

/-! ## C4 — first-writer-wins attribution on upsert -/

/-- C4: when the item's `external_id` already exists, the upsert never adds
a record and never changes any record's identity or run/source attribution
— only metadata columns may change — and the at-most-one-record-per-
external-id invariant is preserved. -/
theorem claim_C4_first_writer_wins (db : List Block)
    (nextId sourceId runId : Nat) (item : Item) (r2Key : Option String)
    (hexists : ∃ b ∈ db, b.externalId = item.externalId) :
    ((upsert_block db nextId sourceId runId item r2Key).2.1.map blockAttrib
        = db.map blockAttrib)
      ∧ (upsert_block db nextId sourceId runId item r2Key).2.1.length
          = db.length
      ∧ ((db.map Block.externalId).Nodup →
          ((upsert_block db nextId sourceId runId item r2Key).2.1.map
            Block.externalId).Nodup) := by
  have hany : db.any (fun b => b.externalId == item.externalId) = true := by
    rcases hexists with ⟨b, hb, he⟩
    exact List.any_eq_true.mpr ⟨b, hb, by simp [he]⟩
  have hattrib : (upsert_block db nextId sourceId runId item r2Key).2.1.map blockAttrib
      = db.map blockAttrib := by
    unfold upsert_block
    cases hpd : preDedupe db item with
    | ret bid => rfl
    | insertPath =>
        unfold insertOnConflict
        rw [if_pos hany]
        dsimp only
        rw [List.map_map]
        apply List.map_congr_left
        intro b _
        by_cases hbe : b.externalId = item.externalId <;>
          simp [hbe, conflictUpdate, blockAttrib]
  refine ⟨hattrib, ?_, ?_⟩
  · have := congrArg List.length hattrib
    simpa using this
  · intro hnd
    have hext : (upsert_block db nextId sourceId runId item r2Key).2.1.map
        Block.externalId = db.map Block.externalId := by
      have := congrArg (List.map (fun p : Nat × String × Nat × Nat => p.2.1)) hattrib
      simpa [List.map_map, Function.comp, blockAttrib] using this
    rw [hext]; exact hnd

/-- C4, witness: re-discovering an existing external id with new metadata
leaves identity and attribution untouched. -/
theorem claim_C4_witness :
    (∃ b ∈ [{ id := 7, externalId := "abc12", sourceId := 2, runId := 11,
              imageUrl := none, videoUrl := none, thumbnailUrl := none,
              ogImageUrl := none, r2Key := none, status := .scraped,
              title := "old", description := "" : Block }],
        b.externalId = "abc12")
      ∧ ((upsert_block
            [{ id := 7, externalId := "abc12", sourceId := 2, runId := 11,
               imageUrl := none, videoUrl := none, thumbnailUrl := none,
               ogImageUrl := none, r2Key := none, status := .scraped,
               title := "old", description := "" }]
            99 5 6 { externalId := "abc12", title := "new" }
            (some "k")).2.1.map blockAttrib
          = [(7, "abc12", 2, 11)]) := by
  constructor
  · exact ⟨{ id := 7, externalId := "abc12", sourceId := 2, runId := 11,
             imageUrl := none, videoUrl := none, thumbnailUrl := none,
             ogImageUrl := none, r2Key := none, status := .scraped,
             title := "old", description := "" }, by simp, rfl⟩
  · have h := claim_C4_first_writer_wins
      [{ id := 7, externalId := "abc12", sourceId := 2, runId := 11,
         imageUrl := none, videoUrl := none, thumbnailUrl := none,
         ogImageUrl := none, r2Key := none, status := .scraped,
         title := "old", description := "" }]
      99 5 6 { externalId := "abc12", title := "new" } (some "k")
      ⟨{ id := 7, externalId := "abc12", sourceId := 2, runId := 11,
         imageUrl := none, videoUrl := none, thumbnailUrl := none,
         ogImageUrl := none, r2Key := none, status := .scraped,
         title := "old", description := "" }, by simp, rfl⟩
    rw [h.1]
    rfl

/-! ## C10 — invariants of item-link discovery -/

/-- First-occurrence folding distributes over concatenation. -/
theorem dedupInto_append (o : List String) (a b : List String) :
    dedupInto o (a ++ b) = dedupInto (dedupInto o a) b := by
  simp [dedupInto, List.foldl_append]

/-- The validated insertion fold is the first-occurrence fold of the
validity-filtered stream. -/
theorem foldl_insertValidated : ∀ (s : List String) (o : List String),
    s.foldl insertValidated o = dedupInto o (s.filter is_valid_item_id) := by
  intro s
  induction s with
  | nil => intro o; rfl
  | cons x s ih =>
      intro o
      show s.foldl insertValidated (insertValidated o x) = _
      rw [ih]
      by_cases hv : is_valid_item_id x
      · rw [List.filter_cons_of_pos (by simpa using hv)]
        show dedupInto (insertValidated o x) (s.filter is_valid_item_id)
          = (s.filter is_valid_item_id).foldl _ (if o.contains x then o else o ++ [x])
        by_cases hco : o.contains x <;>
          simp [insertValidated, hv, hco, dedupInto]
      · rw [List.filter_cons_of_neg (by simpa using hv)]
        simp [insertValidated, hv]

/-- The link-pass insertion fold is the first-occurrence fold of the
extracted-and-truthy candidate stream. -/
theorem foldl_insertExtracted : ∀ (s : List String) (o : List String),
    s.foldl insertExtracted o = dedupInto o (s.filterMap extractTruthy) := by
  intro s
  induction s with
  | nil => intro o; rfl
  | cons x s ih =>
      intro o
      show s.foldl insertExtracted (insertExtracted o x) = _
      rw [ih]
      rcases hx : extract_item_id_from_url x with _ | id
      · rw [show (x :: s).filterMap extractTruthy = s.filterMap extractTruthy by
          simp [List.filterMap_cons, extractTruthy, hx]]
        simp [insertExtracted, hx]
      · by_cases hid : id = ""
        · rw [show (x :: s).filterMap extractTruthy = s.filterMap extractTruthy by
            simp [List.filterMap_cons, extractTruthy, hx, hid]]
          simp [insertExtracted, hx, hid]
        · rw [show (x :: s).filterMap extractTruthy
              = id :: s.filterMap extractTruthy by
            simp [List.filterMap_cons, extractTruthy, hx, hid]]
          show dedupInto (insertExtracted o x) (s.filterMap extractTruthy)
            = (s.filterMap extractTruthy).foldl _
                (if o.contains id then o else o ++ [id])
          by_cases hco : o.contains id <;>
            simp [insertExtracted, hx, hid, hco, dedupInto]

/-- First-occurrence folding preserves freedom from duplicates. -/
theorem dedupInto_nodup : ∀ (s o : List String), o.Nodup →
    (dedupInto o s).Nodup := by
  intro s
  induction s with
  | nil => intro o h; exact h
  | cons x s ih =>
      intro o h
      show (dedupInto (if o.contains x then o else o ++ [x]) s).Nodup
      by_cases hco : o.contains x
      · rw [if_pos hco]; exact ih o h
      · rw [if_neg hco]
        refine ih _ ?_
        simp only [List.nodup_append, List.nodup_cons]
        exact ⟨h, by simp, by simpa using hco⟩

/-- Members of a first-occurrence fold come from the accumulator or the
stream. -/
theorem mem_dedupInto : ∀ (s o : List String) (x : String),
    x ∈ dedupInto o s → x ∈ o ∨ x ∈ s := by
  intro s
  induction s with
  | nil => intro o x h; exact Or.inl h
  | cons y s ih =>
      intro o x h
      have h' : x ∈ dedupInto (if o.contains y then o else o ++ [y]) s := h
      rcases ih _ x h' with hmem | hmem
      · by_cases hco : o.contains y
        · rw [if_pos hco] at hmem; exact Or.inl hmem
        · rw [if_neg hco] at hmem
          rcases List.mem_append.mp hmem with hl | hr
          · exact Or.inl hl
          · simp at hr; subst hr; exact Or.inr (by simp)
      · exact Or.inr (by simp [hmem])

/-- The extractor only ever returns validated ids. -/
theorem extract_item_id_valid (url : String) (id : String)
    (h : extract_item_id_from_url url = some id) :
    is_valid_item_id id = true := by
  unfold extract_item_id_from_url at h
  rcases hh : (scanPositions attemptRawId url.toList).head? with _ | run
  · rw [hh] at h; exact absurd h (by simp)
  · rw [hh] at h
    dsimp only at h
    by_cases hv : is_valid_item_id (String.mk run)
    · rw [if_pos hv] at h
      cases h; exact hv
    · rw [if_neg hv] at h; exact absurd h (by simp)

/-- So does the truthiness-guarded variant used by passes 2 and 4. -/
theorem extractTruthy_valid (href : String) (id : String)
    (h : extractTruthy href = some id) : is_valid_item_id id = true := by
  unfold extractTruthy at h
  rcases hx : extract_item_id_from_url href with _ | id'
  · rw [hx] at h; exact absurd h (by simp)
  · rw [hx] at h
    dsimp only at h
    by_cases hid : id' = ""
    · simp [hid] at h
    · rw [if_pos hid] at h
      cases h
      exact extract_item_id_valid href _ hx

/-- Every member of the concatenated candidate stream is a valid id. -/
theorem candidateStream_valid (parsedIds parsedLinks : Option (List String))
    (html : List Char) :
    ∀ id ∈ candidateStream parsedIds parsedLinks html,
      is_valid_item_id id = true := by
  intro id hid
  unfold candidateStream at hid
  simp only [List.mem_append] at hid
  rcases hid with ((((h | h) | h) | h) | h)
  · exact (List.mem_filter.mp h).2
  · rcases List.mem_filterMap.mp h with ⟨href, _, he⟩
    exact extractTruthy_valid href id he
  · exact (List.mem_filter.mp h).2
  · rcases List.mem_filterMap.mp h with ⟨href, _, he⟩
    exact extractTruthy_valid href id he
  · exact (List.mem_filter.mp h).2

/-- The stateful five-pass fold equals first-occurrence de-duplication of
the concatenated validated candidate stream. -/
theorem itemIdsOf_eq_firstOccur (parsedIds parsedLinks : Option (List String))
    (html : List Char) :
    itemIdsOf parsedIds parsedLinks html
      = firstOccur (candidateStream parsedIds parsedLinks html) := by
  unfold itemIdsOf candidateStream firstOccur
  rw [foldl_insertValidated, foldl_insertExtracted, foldl_insertValidated,
    foldl_insertExtracted, foldl_insertValidated]
  show _ = dedupInto [] _
  rw [dedupInto_append, dedupInto_append, dedupInto_append, dedupInto_append]

/-- C10: for every HTML document and base URL (and any outcome of the two
attribute-JSON helpers), the discovered links are exactly the collected ids
rendered as `{base}/i/{id}/`; the ids contain no duplicates; every id fully
matches `[A-Za-z0-9_-]{5,24}` and is none of the junk literals; and the ids
appear in first-occurrence order across the five extraction passes. -/
theorem claim_C10_link_discovery (parsedIds parsedLinks : Option (List String))
    (html itemBaseUrl : String) :
    find_item_links_in_html parsedIds parsedLinks html itemBaseUrl
        = (itemIdsOf parsedIds parsedLinks html.toList).map
            (fun id => itemBaseUrl ++ "/i/" ++ id ++ "/")
      ∧ (itemIdsOf parsedIds parsedLinks html.toList).Nodup
      ∧ (∀ id ∈ itemIdsOf parsedIds parsedLinks html.toList,
          id.toList.all isIdChar = true ∧ 5 ≤ id.toList.length
            ∧ id.toList.length ≤ 24 ∧ id ≠ "undefined" ∧ id ≠ "null"
            ∧ id ≠ "None" ∧ id ≠ "")
      ∧ itemIdsOf parsedIds parsedLinks html.toList
          = firstOccur (candidateStream parsedIds parsedLinks html.toList) := by
  refine ⟨rfl, ?_, ?_, itemIdsOf_eq_firstOccur parsedIds parsedLinks html.toList⟩
  · rw [itemIdsOf_eq_firstOccur]
    exact dedupInto_nodup _ [] List.nodup_nil
  · intro id hid
    rw [itemIdsOf_eq_firstOccur] at hid
    have hmem : id ∈ candidateStream parsedIds parsedLinks html.toList := by
      rcases mem_dedupInto _ [] id hid with h | h
      · simp at h
      · exact h
    have hv := candidateStream_valid parsedIds parsedLinks html.toList id hmem
    unfold is_valid_item_id at hv
    by_cases hjunk : ["undefined", "null", "None", ""].contains id
    · rw [if_pos hjunk] at hv; exact absurd hv (by simp)
    · rw [if_neg hjunk] at hv
      simp only [Bool.and_eq_true, decide_eq_true_eq] at hv
      refine ⟨hv.1.1, hv.1.2, hv.2, ?_, ?_, ?_, ?_⟩ <;>
        (intro hcontra; subst hcontra; simp at hjunk)

theorem runStep_known_skip (cfg : LoopCfg) (runId sourceId : Nat)
    (st : LoopSt) (e : ItemEnv)
    (hsess : st.session.contains e.item.externalId = false)
    (hrun : item_already_processed st.db runId e.item.externalId = false)
    (hglob : item_exists_globally st.db e.item.externalId = true)
    (hext : e.item.externalId ≠ "")
    (hflag : cfg.stopOnFirstOld = false) :
    runStep cfg runId sourceId st e
      = (if cfg.onlyOldExitStreak ≤ st.streak + 1
            ∧ cfg.probeMinItems ≤ st.processed + 1 then
           (StepRes.brk (knownSkipSt st e),
            [Ev.pull, Ev.globalSkip, Ev.countersPersist, Ev.earlyExit])
         else
           (StepRes.cont (knownSkipSt st e),
            [Ev.pull, Ev.globalSkip, Ev.countersPersist])) := by
  unfold runStep
  dsimp only
  simp only [hsess, hext, hrun, hglob, hflag, if_false, if_true, ne_eq,
    not_false_iff, Bool.false_and, Bool.false_eq_true, knownSkipSt]
  by_cases hbc : cfg.onlyOldExitStreak ≤ st.streak + 1
      ∧ cfg.probeMinItems ≤ st.processed + 1
  · rw [if_pos hbc]
    simp [hbc.1, hbc.2]
  · rw [if_neg hbc]
    rcases Decidable.not_and_iff_or_not.mp hbc with hb | hb <;>
      simp [hb]

theorem plainItem_fields (item : Item) (hplain : plainItem item = true) :
    item.mediaUrl = none ∧ item.imageUrl = none ∧ item.videoUrl = none
      ∧ item.thumbnailUrl = none ∧ item.ogImageUrl = none := by
  have h := hplain
  simp only [plainItem, Bool.and_eq_true, beq_iff_eq] at h
  exact ⟨h.1.1.1.1, h.1.1.1.2, h.1.1.2, h.1.2, h.2⟩

theorem upsert_plain_fresh (db : List Block) (nextId sid rid : Nat)
    (item : Item)
    (hglob : item_exists_globally db item.externalId = false)
    (hplain : plainItem item = true) :
    upsert_block db nextId sid rid item none
      = (nextId, db ++ [newBlock nextId sid rid item none], nextId + 1) := by
  obtain ⟨h1, h2, h3, h4, h5⟩ := plainItem_fields item hplain
  unfold item_exists_globally at hglob
  have hnoext : ∀ b ∈ db, (b.externalId == item.externalId) = false := by
    intro b hb
    rcases hbe : b.externalId == item.externalId with _ | _
    · rfl
    · have : (db.any fun b => b.externalId == item.externalId) = true :=
        List.any_eq_true.mpr ⟨b, hb, hbe⟩
      rw [hglob] at this
      exact absurd this (by simp)
  have hfilter : db.filter (fun b => exactMatched item b) = [] := by
    rw [List.filter_eq_nil_iff]
    intro b hb
    simp [exactMatched, hnoext b hb, h2, h3, h4, h5, pyTruthy]
  have hfps : assetFps item = [] := by
    simp [assetFps, h2, h3, h4, h5, asset_fp]
  unfold upsert_block preDedupe
  rw [hfilter, hfps]
  show insertOnConflict db nextId sid rid item none = _
  unfold insertOnConflict
  rw [if_neg (by simp [hglob])]

theorem runStep_new_plain (cfg : LoopCfg) (runId sourceId : Nat)
    (st : LoopSt) (e : ItemEnv)
    (hsess : st.session.contains e.item.externalId = false)
    (hglob : item_exists_globally st.db e.item.externalId = false)
    (hplain : plainItem e.item = true)
    (hext : e.item.externalId ≠ "")
    (hpause : e.pausedAfter = false) :
    runStep cfg runId sourceId st e
      = (StepRes.cont (newPlainSt runId sourceId st e),
         [Ev.pull, Ev.blockPersist, Ev.countersPersist, Ev.pauseCheck]) := by
  obtain ⟨h1, h2, h3, h4, h5⟩ := plainItem_fields e.item hplain
  have hrun : item_already_processed st.db runId e.item.externalId = false := by
    unfold item_already_processed
    unfold item_exists_globally at hglob
    rw [List.any_eq_false] at hglob ⊢
    intro b hb
    simp [hglob b hb]
  have hatt : uploadAttempted e.item = false := by
    simp [uploadAttempted, h1, pyTruthy]
  unfold runStep
  dsimp only
  simp only [hsess, hext, hrun, hglob, hatt, if_false, Bool.false_eq_true,
    ne_eq, not_false_iff, if_true]
  unfold newItemTail
  rw [upsert_plain_fresh st.db st.nextId sourceId runId e.item hglob hplain]
  dsimp only
  have hcur : ((st.db ++ [newBlock st.nextId sourceId runId e.item none]).any
      fun b => b.id == st.nextId && b.runId == runId) = true := by
    refine List.any_eq_true.mpr ⟨newBlock st.nextId sourceId runId e.item none,
      by simp, by simp [newBlock]⟩
  rw [hcur]
  simp [hpause, newPlainSt, newBlock, pyTruthy]

theorem runStep_upload_error (cfg : LoopCfg) (runId sourceId : Nat)
    (st : LoopSt) (e : ItemEnv)
    (hsess : st.session.contains e.item.externalId = false)
    (hrun : item_already_processed st.db runId e.item.externalId = false)
    (hglob : item_exists_globally st.db e.item.externalId = false)
    (hatt : uploadAttempted e.item = true)
    (hup : e.upload = UploadOutcome.err)
    (hext : e.item.externalId ≠ "") :
    runStep cfg runId sourceId st e
      = (StepRes.cont (uploadErrorSt st e),
         [Ev.pull, Ev.uploadStart, Ev.itemError, Ev.countersPersist]) := by
  unfold runStep
  dsimp only
  simp only [hsess, hext, hrun, hglob, hatt, hup, if_false, if_true,
    Bool.false_eq_true, ne_eq, not_false_iff]
  simp [uploadErrorSt]

theorem insertedBlocks_mem (sid rid : Nat) :
    ∀ (items : List Item) (nid : Nat) (b : Block),
      b ∈ insertedBlocks nid sid rid items →
      b.externalId ∈ items.map Item.externalId ∧ b.runId = rid := by
  intro items
  induction items with
  | nil => intro nid b h; simp [insertedBlocks] at h
  | cons it rest ih =>
      intro nid b h
      simp only [insertedBlocks, List.mem_cons] at h
      rcases h with h | h
      · subst h; exact ⟨by simp [newBlock], rfl⟩
      · rcases ih (nid + 1) b h with ⟨h1, h2⟩
        exact ⟨by simp [h1], h2⟩

theorem contains_false_of_not_mem (l : List String) (x : String)
    (h : ¬ x ∈ l) : l.contains x = false := by
  simpa using h

theorem runLoop_news (cfg : LoopCfg) (rid sid : Nat) :
    ∀ (news : List Item) (st : LoopSt),
    (∀ it ∈ news, plainItem it = true) →
    (∀ it ∈ news, it.externalId ≠ "") →
    ((news.map Item.externalId).Nodup) →
    (∀ it ∈ news, st.session.contains it.externalId = false) →
    (∀ it ∈ news, item_exists_globally st.db it.externalId = false) →
    runLoop cfg rid sid st (plainEnvs news)
      = ({ st with
            db := st.db ++ insertedBlocks st.nextId sid rid news
            nextId := st.nextId + news.length
            processed := st.processed + news.length
            streak := if news.isEmpty then st.streak else 0
            counters := { st.counters with
              uploaded := st.counters.uploaded + news.length
              found := if news.isEmpty then st.counters.found
                       else st.processed + news.length }
            session := st.session ++ news.map Item.externalId },
         false, news.length) := by
  intro news
  induction news with
  | nil =>
      intro st _ _ _ _ _
      simp [runLoop, plainEnvs, insertedBlocks]
  | cons it rest ih =>
      intro st hplain hext hnodup hsess hglob
      have hndc : (it.externalId :: rest.map Item.externalId).Nodup := by
        simpa using hnodup
      have hstep := runStep_new_plain cfg rid sid st { item := it }
        (hsess it (by simp)) (hglob it (by simp)) (hplain it (by simp))
        (hext it (by simp)) rfl
      show runLoop cfg rid sid st ({ item := it } :: plainEnvs rest) = _
      simp only [runLoop, hstep]
      have hih := ih (newPlainSt rid sid st { item := it })
        (fun x hx => hplain x (by simp [hx]))
        (fun x hx => hext x (by simp [hx]))
        ((List.nodup_cons.mp hndc).2)
        (by
          intro x hx
          apply contains_false_of_not_mem
          simp only [newPlainSt]
          intro hmem
          rcases List.mem_append.mp hmem with hmem | hmem
          · exact absurd hmem
              (by simpa using hsess x (List.mem_cons_of_mem _ hx))
          · simp only [List.mem_singleton] at hmem
            have hin : it.externalId ∈ rest.map Item.externalId := by
              rw [← hmem]; exact List.mem_map_of_mem Item.externalId hx
            exact (List.nodup_cons.mp hndc).1 hin)
        (by
          intro x hx
          simp only [newPlainSt]
          unfold item_exists_globally at *
          rw [List.any_eq_false]
          intro b hb
          rcases List.mem_append.mp hb with hb | hb
          · have hg := hglob x (List.mem_cons_of_mem _ hx)
            rw [List.any_eq_false] at hg
            exact hg b hb
          · simp only [List.mem_singleton] at hb
            subst hb
            simp only [newBlock, beq_iff_eq]
            intro hcontra
            have hin : it.externalId ∈ rest.map Item.externalId := by
              rw [hcontra]; exact List.mem_map_of_mem Item.externalId hx
            exact (List.nodup_cons.mp hndc).1 hin)
      rw [hih]
      refine congrArg (fun s => (s, false, rest.length + 1)) ?_
      by_cases hre : rest = []
      · subst hre
        simp [newPlainSt, insertedBlocks, List.append_assoc]
      · have hne : rest.isEmpty = false := by
          simpa [List.isEmpty_iff] using hre
        simp only [newPlainSt, insertedBlocks, List.length_cons,
          List.map_cons, List.isEmpty_cons, hne, Bool.false_eq_true,
          if_false, LoopSt.mk.injEq, Counters.mk.injEq]
        repeat' apply And.intro
        all_goals first | rfl | omega | simp [List.append_assoc]

theorem runLoop_tail (cfg : LoopCfg) (rid sid : Nat)
    (hflag : cfg.stopOnFirstOld = false) :
    ∀ (ts : List Item) (st : LoopSt),
    (∀ it ∈ ts, it.externalId ≠ "") →
    ((ts.map Item.externalId).Nodup) →
    (∀ it ∈ ts, st.session.contains it.externalId = false) →
    (∀ it ∈ ts, item_already_processed st.db rid it.externalId = false) →
    (∀ it ∈ ts, item_exists_globally st.db it.externalId = true) →
    max 1 (max (cfg.onlyOldExitStreak - st.streak)
      (cfg.probeMinItems - st.processed)) ≤ ts.length →
    (runLoop cfg rid sid st (plainEnvs ts)).2.1 = true
      ∧ (runLoop cfg rid sid st (plainEnvs ts)).2.2
          = max 1 (max (cfg.onlyOldExitStreak - st.streak)
              (cfg.probeMinItems - st.processed)) := by
  intro ts
  induction ts with
  | nil =>
      intro st _ _ _ _ _ hlen
      simp at hlen
  | cons t rest ih =>
      intro st hext hnodup hsess hrun hglob hlen
      have hndc : (t.externalId :: rest.map Item.externalId).Nodup := by
        simpa using hnodup
      have hstep := runStep_known_skip cfg rid sid st { item := t }
        (hsess t (by simp)) (hrun t (by simp)) (hglob t (by simp))
        (hext t (by simp)) hflag
      rw [show plainEnvs (t :: rest) = { item := t } :: plainEnvs rest from rfl]
      by_cases hbc : cfg.onlyOldExitStreak ≤ st.streak + 1
          ∧ cfg.probeMinItems ≤ st.processed + 1
      · rw [if_pos hbc] at hstep
        simp only [runLoop, hstep]
        exact ⟨by trivial, by omega⟩
      · rw [if_neg hbc] at hstep
        have hM2 : 2 ≤ max 1 (max (cfg.onlyOldExitStreak - st.streak)
            (cfg.probeMinItems - st.processed)) := by omega
        have hih := ih (knownSkipSt st { item := t })
          (fun x hx => hext x (by simp [hx]))
          ((List.nodup_cons.mp hndc).2)
          (by
            intro x hx
            apply contains_false_of_not_mem
            simp only [knownSkipSt]
            intro hmem
            rcases List.mem_append.mp hmem with hmem | hmem
            · exact absurd hmem
                (by simpa using hsess x (List.mem_cons_of_mem _ hx))
            · simp only [List.mem_singleton] at hmem
              have hin : t.externalId ∈ rest.map Item.externalId := by
                rw [← hmem]; exact List.mem_map_of_mem Item.externalId hx
              exact (List.nodup_cons.mp hndc).1 hin)
          (fun x hx => hrun x (by simp [hx]))
          (fun x hx => hglob x (by simp [hx]))
          (by
            simp only [knownSkipSt]
            simp only [List.length_cons] at hlen
            omega)
        simp only [runLoop, hstep]
        refine ⟨hih.1, ?_⟩
        rw [hih.2]
        simp only [knownSkipSt]
        omega
  
theorem newItemTail_streak (runId sourceId : Nat) (st : LoopSt) (e : ItemEnv)
    (r2Key : Option String) (headEvs : List Ev) :
    (stepState (newItemTail runId sourceId st e r2Key headEvs).1).streak
      = st.streak := by
  unfold newItemTail
  dsimp only
  split
  · split <;> rfl
  · rfl

theorem runStep_new_streak (cfg : LoopCfg) (runId sourceId : Nat)
    (st : LoopSt) (e : ItemEnv)
    (hsess : st.session.contains e.item.externalId = false)
    (hrun : item_already_processed st.db runId e.item.externalId = false)
    (hglob : item_exists_globally st.db e.item.externalId = false) :
    (stepState (runStep cfg runId sourceId st e).1).streak = 0 := by
  unfold runStep
  dsimp only
  simp only [hsess, hrun, hglob, Bool.false_eq_true, if_false]
  split
  · split
    · simp [stepState]
    · rw [newItemTail_streak]
  · rw [newItemTail_streak]

theorem claim_C2_early_exit (cfg : LoopCfg) (runId sourceId : Nat)
    (db0 : List Block) (nextId0 : Nat) (news tail : List Item) (m : Nat)
    (hflag : cfg.stopOnFirstOld = false)
    (hplainN : ∀ it ∈ news, plainItem it = true)
    (hextAll : ∀ it ∈ news ++ tail, it.externalId ≠ "")
    (hnodup : ((news ++ tail).map Item.externalId).Nodup)
    (hfresh : ∀ it ∈ news, item_exists_globally db0 it.externalId = false)
    (hknown : ∀ it ∈ tail, item_exists_globally db0 it.externalId = true)
    (hforeign : ∀ b ∈ db0, b.runId ≠ runId)
    (hK : 1 ≤ news.length)
    (hT : 1 ≤ cfg.onlyOldExitStreak)
    (hm : max cfg.onlyOldExitStreak (cfg.probeMinItems - news.length) ≤ m)
    (hmlen : m ≤ tail.length) :
    run_scraper_for_url cfg runId sourceId db0 nextId0
        (plainEnvs (news ++ tail.take m))
      = run_scraper_for_url cfg runId sourceId db0 nextId0
          (plainEnvs (news ++ tail.take
            (max cfg.onlyOldExitStreak (cfg.probeMinItems - news.length))))
    ∧ (run_scraper_for_url cfg runId sourceId db0 nextId0
        (plainEnvs (news ++ tail.take m))).pulled
        = news.length
          + max cfg.onlyOldExitStreak (cfg.probeMinItems - news.length)
    ∧ (run_scraper_for_url cfg runId sourceId db0 nextId0
        (plainEnvs (news ++ tail.take m))).counters.found
        = news.length
          + max cfg.onlyOldExitStreak (cfg.probeMinItems - news.length)
    ∧ (run_scraper_for_url cfg runId sourceId db0 nextId0
        (plainEnvs (news ++ tail.take m))).broke = true
    ∧ (∀ (st : LoopSt) (e : ItemEnv),
        st.session.contains e.item.externalId = false →
        item_already_processed st.db runId e.item.externalId = false →
        item_exists_globally st.db e.item.externalId = false →
        (stepState (runStep cfg runId sourceId st e).1).streak = 0) := by
  have hndN : (news.map Item.externalId).Nodup := by
    rw [List.map_append] at hnodup
    exact hnodup.of_append_left
  have hndT : (tail.map Item.externalId).Nodup := by
    rw [List.map_append] at hnodup
    exact hnodup.of_append_right
  have hdisj : ∀ x ∈ tail, ¬ x.externalId ∈ news.map Item.externalId := by
    intro x hx hmem
    rw [List.map_append] at hnodup
    exact (List.disjoint_of_nodup_append hnodup) hmem
      (List.mem_map_of_mem Item.externalId hx)
  have hne : news.isEmpty = false := by
    cases news with
    | nil => simp at hK
    | cons _ _ => rfl
  have hph1 : runLoop cfg runId sourceId (initSt db0 nextId0) (plainEnvs news)
      = (phase1St db0 nextId0 runId sourceId news, false, news.length) := by
    have h := runLoop_news cfg runId sourceId news (initSt db0 nextId0)
      hplainN (fun it hit => hextAll it (List.mem_append_left _ hit)) hndN
      (fun it _ => rfl) hfresh
    simp only [hne, Bool.false_eq_true, if_false] at h
    exact h
  have henv : ∀ (l1 l2 : List Item),
      plainEnvs (l1 ++ l2) = plainEnvs l1 ++ plainEnvs l2 := by
    intro l1 l2; simp [plainEnvs]
  -- the early-exit analysis of the known tail, from the phase-1 state
  have htailM : ∀ n, max cfg.onlyOldExitStreak
        (cfg.probeMinItems - news.length) ≤ n → n ≤ tail.length →
      (runLoop cfg runId sourceId (phase1St db0 nextId0 runId sourceId news)
          (plainEnvs (tail.take n))).2.1 = true
      ∧ (runLoop cfg runId sourceId (phase1St db0 nextId0 runId sourceId news)
          (plainEnvs (tail.take n))).2.2
        = max cfg.onlyOldExitStreak (cfg.probeMinItems - news.length) := by
    intro n hn hnlen
    have hsub : ∀ x ∈ tail.take n, x ∈ tail := fun x hx =>
      List.take_subset n tail hx
    have happ := runLoop_tail cfg runId sourceId hflag (tail.take n)
      (phase1St db0 nextId0 runId sourceId news)
      (fun it hit => hextAll it (List.mem_append_right _ (hsub it hit)))
      (hndT.sublist ((List.take_sublist n tail).map Item.externalId))
      (by
        intro x hx
        apply contains_false_of_not_mem
        intro hmem
        simp only [phase1St, List.nil_append] at hmem
        exact hdisj x (hsub x hx) hmem)
      (by
        intro x hx
        simp only [phase1St]
        unfold item_already_processed
        rw [List.any_eq_false]
        intro b hb
        rcases List.mem_append.mp hb with hb | hb
        · simp only [Bool.and_eq_true, beq_iff_eq, not_and]
          intro hbr
          exact absurd hbr (hforeign b hb)
        · rcases insertedBlocks_mem sourceId runId news nextId0 b hb
            with ⟨hbe, _⟩
          simp only [Bool.and_eq_true, beq_iff_eq, not_and]
          intro _ hbe2
          exact hdisj x (hsub x hx) (hbe2 ▸ hbe))
      (by
        intro x hx
        simp only [phase1St]
        unfold item_exists_globally at *
        rw [List.any_append, hknown x (hsub x hx)]
        rfl)
      (by
        simp only [phase1St]
        rw [List.length_take]
        omega)
    refine ⟨happ.1, ?_⟩
    rw [happ.2]
    simp only [phase1St]
    omega
  -- a loop over phase 1 followed by any continuation
  have hcomp : ∀ (l2 : List ItemEnv),
      runLoop cfg runId sourceId (initSt db0 nextId0) (plainEnvs news ++ l2)
        = ((runLoop cfg runId sourceId
              (phase1St db0 nextId0 runId sourceId news) l2).1,
           (runLoop cfg runId sourceId
              (phase1St db0 nextId0 runId sourceId news) l2).2.1,
           news.length + (runLoop cfg runId sourceId
              (phase1St db0 nextId0 runId sourceId news) l2).2.2) := by
    intro l2
    rw [runLoop_append_cont cfg runId sourceId (plainEnvs news) l2 _
      (by rw [hph1])]
    rw [hph1]
  -- the stopped loop ignores the rest of the tail
  have hstab : runLoop cfg runId sourceId
        (phase1St db0 nextId0 runId sourceId news) (plainEnvs (tail.take m))
      = runLoop cfg runId sourceId
          (phase1St db0 nextId0 runId sourceId news)
          (plainEnvs (tail.take (max cfg.onlyOldExitStreak
            (cfg.probeMinItems - news.length)))) := by
    have hsplit : tail.take m
        = tail.take (max cfg.onlyOldExitStreak
            (cfg.probeMinItems - news.length))
          ++ (tail.drop (max cfg.onlyOldExitStreak
            (cfg.probeMinItems - news.length))).take
              (m - max cfg.onlyOldExitStreak
                (cfg.probeMinItems - news.length)) := by
      rw [← List.take_add]
      congr 1
      omega
    rw [hsplit, henv]
    exact runLoop_break_stable cfg runId sourceId _ _ _
      (htailM _ le_rfl (by omega)).1
  have hloopEq : runLoop cfg runId sourceId (initSt db0 nextId0)
        (plainEnvs (news ++ tail.take m))
      = runLoop cfg runId sourceId (initSt db0 nextId0)
          (plainEnvs (news ++ tail.take (max cfg.onlyOldExitStreak
            (cfg.probeMinItems - news.length)))) := by
    rw [henv, henv, hcomp, hcomp, hstab]
  refine ⟨?_, ?_, ?_, ?_, ?_⟩
  · unfold run_scraper_for_url
    rw [hloopEq]
  · show (runLoop cfg runId sourceId (initSt db0 nextId0)
        (plainEnvs (news ++ tail.take m))).2.2 = _
    rw [henv, hcomp, (htailM m hm hmlen).2]
  · show (runLoop cfg runId sourceId (initSt db0 nextId0)
        (plainEnvs (news ++ tail.take m))).1.processed = _
    rw [runLoop_processed, henv, hcomp, (htailM m hm hmlen).2]
    simp [initSt]
  · show (runLoop cfg runId sourceId (initSt db0 nextId0)
        (plainEnvs (news ++ tail.take m))).2.1 = true
    rw [henv, hcomp]
    exact (htailM m hm hmlen).1
  · intro st e h1 h2 h3
    exact runStep_new_streak cfg runId sourceId st e h1 h2 h3

theorem runStep_known_firstOld (cfg : LoopCfg) (runId sourceId : Nat)
    (st : LoopSt) (e : ItemEnv)
    (hsess : st.session.contains e.item.externalId = false)
    (hrun : item_already_processed st.db runId e.item.externalId = false)
    (hglob : item_exists_globally st.db e.item.externalId = true)
    (hext : e.item.externalId ≠ "")
    (hflag : cfg.stopOnFirstOld = true)
    (hminnew : cfg.minNewBeforeBreak ≤ st.counters.uploaded)
    (hprobe : cfg.probeMinItems ≤ st.processed + 1) :
    runStep cfg runId sourceId st e
      = (StepRes.brk (knownSkipSt st e),
         [Ev.pull, Ev.globalSkip, Ev.countersPersist, Ev.earlyExit]) := by
  unfold runStep
  dsimp only
  simp only [hsess, hext, hrun, hglob, hflag, if_false, if_true, ne_eq,
    not_false_iff, Bool.false_eq_true, Bool.true_and]
  rw [if_pos (by simp [hminnew, hprobe])]
  simp [knownSkipSt]

theorem runStep_new_plain_pauseStop (cfg : LoopCfg) (runId sourceId : Nat)
    (st : LoopSt) (e : ItemEnv)
    (hsess : st.session.contains e.item.externalId = false)
    (hglob : item_exists_globally st.db e.item.externalId = false)
    (hplain : plainItem e.item = true)
    (hext : e.item.externalId ≠ "")
    (hpause : e.pausedAfter = true)
    (hres : e.resumeContinue = false) :
    runStep cfg runId sourceId st e
      = (StepRes.brk (newPlainSt runId sourceId st e),
         [Ev.pull, Ev.blockPersist, Ev.countersPersist, Ev.pauseCheck,
          Ev.pauseEnter, Ev.stopEv]) := by
  obtain ⟨h1, h2, h3, h4, h5⟩ := plainItem_fields e.item hplain
  have hrun : item_already_processed st.db runId e.item.externalId = false := by
    unfold item_already_processed
    unfold item_exists_globally at hglob
    rw [List.any_eq_false] at hglob ⊢
    intro b hb
    simp [hglob b hb]
  have hatt : uploadAttempted e.item = false := by
    simp [uploadAttempted, h1, pyTruthy]
  unfold runStep
  dsimp only
  simp only [hsess, hext, hrun, hglob, hatt, if_false, Bool.false_eq_true,
    ne_eq, not_false_iff, if_true]
  unfold newItemTail
  rw [upsert_plain_fresh st.db st.nextId sourceId runId e.item hglob hplain]
  dsimp only
  have hcur : ((st.db ++ [newBlock st.nextId sourceId runId e.item none]).any
      fun b => b.id == st.nextId && b.runId == runId) = true := by
    refine List.any_eq_true.mpr ⟨newBlock st.nextId sourceId runId e.item none,
      by simp, by simp [newBlock]⟩
  rw [hcur]
  simp [hpause, hres, newPlainSt, newBlock, pyTruthy]

theorem runStep_trace_safe (cfg : LoopCfg) (runId sourceId : Nat)
    (st : LoopSt) (e : ItemEnv) (u : Bool) (t : List Ev)
    (ht : ∀ u', pauseSafe u' t = true) :
    pauseSafe u ((runStep cfg runId sourceId st e).2 ++ t) = true := by
  unfold runStep newItemTail
  dsimp only
  repeat' split
  all_goals simp [pauseSafe, ht true, ht false, ht u]

theorem runTrace_pauseSafe (cfg : LoopCfg) (runId sourceId : Nat) :
    ∀ (envs : List ItemEnv) (st : LoopSt) (u : Bool),
      pauseSafe u (runTrace cfg runId sourceId st envs) = true := by
  intro envs
  induction envs with
  | nil => intro st u; rfl
  | cons e rest ih =>
      intro st u
      simp only [runTrace]
      rcases hstep : runStep cfg runId sourceId st e with ⟨res, evs⟩
      cases res with
      | brk st' =>
          have h := runStep_trace_safe cfg runId sourceId st e u []
            (fun u' => rfl)
          rw [hstep] at h
          simpa using h
      | cont st' =>
          have h := runStep_trace_safe cfg runId sourceId st e u
            (runTrace cfg runId sourceId st' rest) (fun u' => ih st' u')
          rw [hstep] at h
          simpa using h

theorem wait_for_resume_first_decisive :
    ∀ (pre : List SourceStatus) (s : SourceStatus) (rest : List SourceStatus),
    (∀ x ∈ pre, decisiveStatus x = false) → decisiveStatus s = true →
    wait_for_resume (pre ++ s :: rest)
      = if s = SourceStatus.active then ResumeOutcome.resumed
        else ResumeOutcome.stopped := by
  intro pre
  induction pre with
  | nil =>
      intro s rest _ hs
      cases s <;> simp [wait_for_resume] <;> simp [decisiveStatus] at hs
  | cons x pre' ih =>
      intro s rest hpre hs
      have hx := hpre x (by simp)
      cases x <;> simp [decisiveStatus] at hx
      show wait_for_resume (pre' ++ s :: rest) = _
      exact ih s rest (fun y hy => hpre y (by simp [hy])) hs

/-- C6, counterexample to the claim as stated: when the storage upload of
an item's media fails permanently, the per-item handler counts the error
and continues — but the upsert is never reached, so no metadata-only
record is persisted for that item (the final table is empty here). -/
theorem claim_C6_counterexample :
    (run_scraper_for_url
        { stopOnFirstOld := false, minNewBeforeBreak := 1,
          onlyOldExitStreak := 8, probeMinItems := 48 }
        2 1 [] 1
        [{ item := { externalId := "media99",
                     mediaUrl := some "https://cdn/m.jpg" },
           upload := .err }]).counters.errors = 1
      ∧ (run_scraper_for_url
          { stopOnFirstOld := false, minNewBeforeBreak := 1,
            onlyOldExitStreak := 8, probeMinItems := 48 }
          2 1 [] 1
          [{ item := { externalId := "media99",
                       mediaUrl := some "https://cdn/m.jpg" },
             upload := .err }]).status = RunStatus.completed
      ∧ (run_scraper_for_url
          { stopOnFirstOld := false, minNewBeforeBreak := 1,
            onlyOldExitStreak := 8, probeMinItems := 48 }
          2 1 [] 1
          [{ item := { externalId := "media99",
                       mediaUrl := some "https://cdn/m.jpg" },
             upload := .err }]).db = [] := by
  refine ⟨by decide, by decide, by decide⟩

/-- C6 (amended): an item whose media upload fails permanently is counted
in the run's errors counter and the run continues to completion, but the
item is NOT persisted — the upsert is skipped by the exception.  A
metadata-only record without a storage key (status `scraped`, `r2_key`
NULL) arises only for items that carry no uploadable media at all. -/
theorem claim_C6_upload_failure :
    (∀ (cfg : LoopCfg) (runId sourceId : Nat) (st : LoopSt) (e : ItemEnv),
      st.session.contains e.item.externalId = false →
      item_already_processed st.db runId e.item.externalId = false →
      item_exists_globally st.db e.item.externalId = false →
      uploadAttempted e.item = true →
      e.upload = UploadOutcome.err →
      e.item.externalId ≠ "" →
      runStep cfg runId sourceId st e
          = (StepRes.cont (uploadErrorSt st e),
             [Ev.pull, Ev.uploadStart, Ev.itemError, Ev.countersPersist])
        ∧ (uploadErrorSt st e).db = st.db
        ∧ (uploadErrorSt st e).counters.errors = st.counters.errors + 1
        ∧ (uploadErrorSt st e).counters.uploaded = st.counters.uploaded)
      ∧ (∀ (cfg : LoopCfg) (runId sourceId : Nat) (db0 : List Block)
          (nextId0 : Nat) (envs : List ItemEnv),
          (run_scraper_for_url cfg runId sourceId db0 nextId0 envs).status
            = RunStatus.completed)
      ∧ (∀ (cfg : LoopCfg) (runId sourceId : Nat) (st : LoopSt) (e : ItemEnv),
          st.session.contains e.item.externalId = false →
          item_exists_globally st.db e.item.externalId = false →
          plainItem e.item = true →
          e.item.externalId ≠ "" →
          e.pausedAfter = false →
          runStep cfg runId sourceId st e
              = (StepRes.cont (newPlainSt runId sourceId st e),
                 [Ev.pull, Ev.blockPersist, Ev.countersPersist, Ev.pauseCheck])
            ∧ (newPlainSt runId sourceId st e).db
                = st.db ++ [newBlock st.nextId sourceId runId e.item none]
            ∧ (newBlock st.nextId sourceId runId e.item none).r2Key = none
            ∧ (newBlock st.nextId sourceId runId e.item none).status
                = BlockStatus.scraped) := by
  refine ⟨?_, ?_, ?_⟩
  · intro cfg runId sourceId st e h1 h2 h3 h4 h5 h6
    exact ⟨runStep_upload_error cfg runId sourceId st e h1 h2 h3 h4 h5 h6,
      rfl, rfl, rfl⟩
  · intro cfg runId sourceId db0 nextId0 envs
    rfl
  · intro cfg runId sourceId st e h1 h2 h3 h4 h5
    exact ⟨runStep_new_plain cfg runId sourceId st e h1 h2 h3 h4 h5,
      rfl, rfl, by simp [newBlock, pyTruthy]⟩

/-- C6, witness: a concrete fresh item with failing upload takes the
error-count-and-continue step with the table untouched. -/
theorem claim_C6_witness :
    ((initSt [] 1).session.contains "media99" = false
        ∧ uploadAttempted
            { externalId := "media99",
              mediaUrl := some "https://cdn/m.jpg" } = true)
      ∧ runStep
          { stopOnFirstOld := false, minNewBeforeBreak := 1,
            onlyOldExitStreak := 8, probeMinItems := 48 }
          2 1 (initSt [] 1)
          { item := { externalId := "media99",
                      mediaUrl := some "https://cdn/m.jpg" },
            upload := .err }
        = (StepRes.cont (uploadErrorSt (initSt [] 1)
            { item := { externalId := "media99",
                        mediaUrl := some "https://cdn/m.jpg" },
              upload := .err }),
           [Ev.pull, Ev.uploadStart, Ev.itemError, Ev.countersPersist]) := by
  refine ⟨⟨by decide, by decide⟩, ?_⟩
  exact (claim_C6_upload_failure.1
    { stopOnFirstOld := false, minNewBeforeBreak := 1,
      onlyOldExitStreak := 8, probeMinItems := 48 }
    2 1 (initSt [] 1)
    { item := { externalId := "media99",
                mediaUrl := some "https://cdn/m.jpg" },
      upload := .err }
    (by decide) (by decide) (by decide) (by decide) rfl (by decide)).1

/-- C8: runs of kind `manual` are never subject to the stop-on-first-old
fast exit (the flag computes to false for them, whatever the environment
says); and with the flag enabled, as soon as the loop meets one
globally-known item after at least `minNewBeforeBreak` uploads and with the
probe minimum reached, it breaks — the remaining iterator output is never
pulled. -/
theorem claim_C8_monitor_fast_exit :
    (∀ (envFlag : String),
        computeStopOnFirstOld RunKind.manual envFlag = false)
      ∧ (∀ (cfg : LoopCfg) (runId sourceId : Nat) (st : LoopSt)
          (l1 : List ItemEnv) (e : ItemEnv) (l2 : List ItemEnv),
          (runLoop cfg runId sourceId st l1).2.1 = false →
          (runLoop cfg runId sourceId st l1).1.session.contains
            e.item.externalId = false →
          item_already_processed (runLoop cfg runId sourceId st l1).1.db
            runId e.item.externalId = false →
          item_exists_globally (runLoop cfg runId sourceId st l1).1.db
            e.item.externalId = true →
          e.item.externalId ≠ "" →
          cfg.stopOnFirstOld = true →
          cfg.minNewBeforeBreak
            ≤ (runLoop cfg runId sourceId st l1).1.counters.uploaded →
          cfg.probeMinItems
            ≤ (runLoop cfg runId sourceId st l1).1.processed + 1 →
          runLoop cfg runId sourceId st (l1 ++ e :: l2)
              = runLoop cfg runId sourceId st (l1 ++ [e])
            ∧ (runLoop cfg runId sourceId st (l1 ++ [e])).2.1 = true) := by
  constructor
  · intro envFlag
    rfl
  · intro cfg runId sourceId st l1 e l2 h1 h2 h3 h4 h5 h6 h7 h8
    have hstep := runStep_known_firstOld cfg runId sourceId
      (runLoop cfg runId sourceId st l1).1 e h2 h3 h4 h5 h6 h7 h8
    have hsingle : runLoop cfg runId sourceId
        (runLoop cfg runId sourceId st l1).1 [e]
        = (knownSkipSt (runLoop cfg runId sourceId st l1).1 e, true, 1) := by
      simp [runLoop, hstep]
    have hbroke : (runLoop cfg runId sourceId st (l1 ++ [e])).2.1 = true := by
      rw [runLoop_append_cont cfg runId sourceId l1 [e] st h1, hsingle]
    refine ⟨?_, hbroke⟩
    have hassoc : l1 ++ e :: l2 = (l1 ++ [e]) ++ l2 := by simp
    rw [hassoc]
    exact runLoop_break_stable cfg runId sourceId (l1 ++ [e]) l2 st hbroke

/-- C8, witness: a scheduled-style configuration with the flag on, one
fresh upload, probe minimum 2: the first known item breaks the sweep and
the trailing item is never pulled. -/
theorem claim_C8_witness :
    ((runLoop
        { stopOnFirstOld := true, minNewBeforeBreak := 1,
          onlyOldExitStreak := 8, probeMinItems := 2 }
        7 1
        (initSt
          [{ id := 1, externalId := "known95", sourceId := 1, runId := 3,
             imageUrl := none, videoUrl := none, thumbnailUrl := none,
             ogImageUrl := none, r2Key := none, status := .scraped,
             title := "", description := "" }] 2)
        (plainEnvs [{ externalId := "fresh77" }])).2.1 = false)
      ∧ runLoop
          { stopOnFirstOld := true, minNewBeforeBreak := 1,
            onlyOldExitStreak := 8, probeMinItems := 2 }
          7 1
          (initSt
            [{ id := 1, externalId := "known95", sourceId := 1, runId := 3,
               imageUrl := none, videoUrl := none, thumbnailUrl := none,
               ogImageUrl := none, r2Key := none, status := .scraped,
               title := "", description := "" }] 2)
          (plainEnvs [{ externalId := "fresh77" }]
            ++ { item := { externalId := "known95" } }
              :: [{ item := { externalId := "tail11" } }])
        = runLoop
            { stopOnFirstOld := true, minNewBeforeBreak := 1,
              onlyOldExitStreak := 8, probeMinItems := 2 }
            7 1
            (initSt
              [{ id := 1, externalId := "known95", sourceId := 1, runId := 3,
                 imageUrl := none, videoUrl := none, thumbnailUrl := none,
                 ogImageUrl := none, r2Key := none, status := .scraped,
                 title := "", description := "" }] 2)
            (plainEnvs [{ externalId := "fresh77" }]
              ++ [{ item := { externalId := "known95" } }]) := by
  refine ⟨by decide, ?_⟩
  exact (claim_C8_monitor_fast_exit.2
    { stopOnFirstOld := true, minNewBeforeBreak := 1,
      onlyOldExitStreak := 8, probeMinItems := 2 }
    7 1
    (initSt
      [{ id := 1, externalId := "known95", sourceId := 1, runId := 3,
         imageUrl := none, videoUrl := none, thumbnailUrl := none,
         ogImageUrl := none, r2Key := none, status := .scraped,
         title := "", description := "" }] 2)
    (plainEnvs [{ externalId := "fresh77" }])
    { item := { externalId := "known95" } }
    [{ item := { externalId := "tail11" } }]
    (by decide) (by decide) (by decide) (by decide) (by decide) rfl
    (by decide) (by decide)).1

/-- C9: (i) in every run trace, the pause flag is observed only after the
current item's upload and committed database write (`pauseSafe` scans the
trace: no `pauseCheck` occurs between an `uploadStart` and the item's
`blockPersist`); (ii) the resume wait polls until the first decisive Source
status — `active` resumes, `completed`/`error` stops; (iii) an externally
stopped (or any non-crashing) run ends `completed`, never `error`; (iv) a
pause observed at an item boundary with a stop answer breaks the loop right
after the fully persisted item. -/
theorem claim_C9_pause_boundary :
    (∀ (cfg : LoopCfg) (runId sourceId : Nat) (st : LoopSt)
        (envs : List ItemEnv),
        pauseSafe false (runTrace cfg runId sourceId st envs) = true)
      ∧ (∀ (pre : List SourceStatus) (s : SourceStatus)
          (rest : List SourceStatus),
          (∀ x ∈ pre, decisiveStatus x = false) → decisiveStatus s = true →
          wait_for_resume (pre ++ s :: rest)
            = if s = SourceStatus.active then ResumeOutcome.resumed
              else ResumeOutcome.stopped)
      ∧ (∀ (cfg : LoopCfg) (runId sourceId : Nat) (db0 : List Block)
          (nextId0 : Nat) (envs : List ItemEnv),
          (run_scraper_for_url cfg runId sourceId db0 nextId0 envs).status
            = RunStatus.completed)
      ∧ (∀ (cfg : LoopCfg) (runId sourceId : Nat) (st : LoopSt) (e : ItemEnv),
          st.session.contains e.item.externalId = false →
          item_exists_globally st.db e.item.externalId = false →
          plainItem e.item = true →
          e.item.externalId ≠ "" →
          e.pausedAfter = true →
          e.resumeContinue = false →
          runStep cfg runId sourceId st e
            = (StepRes.brk (newPlainSt runId sourceId st e),
               [Ev.pull, Ev.blockPersist, Ev.countersPersist, Ev.pauseCheck,
                Ev.pauseEnter, Ev.stopEv])) := by
  refine ⟨?_, ?_, ?_, ?_⟩
  · intro cfg runId sourceId st envs
    exact runTrace_pauseSafe cfg runId sourceId envs st false
  · exact wait_for_resume_first_decisive
  · intro cfg runId sourceId db0 nextId0 envs
    rfl
  · intro cfg runId sourceId st e h1 h2 h3 h4 h5 h6
    exact runStep_new_plain_pauseStop cfg runId sourceId st e h1 h2 h3 h4 h5 h6

/-- C9, witness: concrete polls resolve to stop and to resume, and a
concrete two-item trace (one success, one failed upload) is pause-safe. -/
theorem claim_C9_witness :
    ((∀ x ∈ ([SourceStatus.paused, SourceStatus.paused] : List SourceStatus),
        decisiveStatus x = false)
      ∧ decisiveStatus SourceStatus.completed = true)
    ∧ wait_for_resume [SourceStatus.paused, SourceStatus.paused,
        SourceStatus.completed] = ResumeOutcome.stopped
    ∧ wait_for_resume [SourceStatus.paused, SourceStatus.active]
        = ResumeOutcome.resumed
    ∧ pauseSafe false (runTrace
        { stopOnFirstOld := false, minNewBeforeBreak := 1,
          onlyOldExitStreak := 8, probeMinItems := 48 }
        2 1 (initSt [] 1)
        [{ item := { externalId := "fresh55" } },
         { item := { externalId := "media99",
                     mediaUrl := some "https://cdn/m.jpg" },
           upload := .err }]) = true := by
  refine ⟨⟨by decide, by decide⟩, ?_, ?_, ?_⟩
  · have h := claim_C9_pause_boundary.2.1
      [SourceStatus.paused, SourceStatus.paused] SourceStatus.completed []
      (by decide) (by decide)
    simpa using h
  · have h := claim_C9_pause_boundary.2.1
      [SourceStatus.paused] SourceStatus.active [] (by decide) (by decide)
    simpa using h
  · exact claim_C9_pause_boundary.1 _ 2 1 (initSt [] 1) _

/-- C2, witness: two fresh items then a known tail, streak threshold 2 and
probe minimum 3: the run breaks early (after pulling exactly 4 items, the
third tail item is never pulled). -/
theorem claim_C2_witness :
    (∀ it ∈ ([{ externalId := "fresh01" },
              { externalId := "fresh02" }] : List Item),
        plainItem it = true)
      ∧ (run_scraper_for_url
          { stopOnFirstOld := false, minNewBeforeBreak := 1,
            onlyOldExitStreak := 2, probeMinItems := 3 }
          7 1
          [{ id := 1, externalId := "known01", sourceId := 1, runId := 4,
             imageUrl := none, videoUrl := none, thumbnailUrl := none,
             ogImageUrl := none, r2Key := none, status := .scraped,
             title := "", description := "" },
           { id := 2, externalId := "known02", sourceId := 1, runId := 4,
             imageUrl := none, videoUrl := none, thumbnailUrl := none,
             ogImageUrl := none, r2Key := none, status := .scraped,
             title := "", description := "" },
           { id := 3, externalId := "known03", sourceId := 1, runId := 4,
             imageUrl := none, videoUrl := none, thumbnailUrl := none,
             ogImageUrl := none, r2Key := none, status := .scraped,
             title := "", description := "" }]
          10
          (plainEnvs
            (([{ externalId := "fresh01" },
               { externalId := "fresh02" }] : List Item)
              ++ ([{ externalId := "known01" }, { externalId := "known02" },
                   { externalId := "known03" }] : List Item).take 3))).broke
        = true := by
  constructor
  · decide
  · exact (claim_C2_early_exit
      { stopOnFirstOld := false, minNewBeforeBreak := 1,
        onlyOldExitStreak := 2, probeMinItems := 3 }
      7 1
      [{ id := 1, externalId := "known01", sourceId := 1, runId := 4,
         imageUrl := none, videoUrl := none, thumbnailUrl := none,
         ogImageUrl := none, r2Key := none, status := .scraped,
         title := "", description := "" },
       { id := 2, externalId := "known02", sourceId := 1, runId := 4,
         imageUrl := none, videoUrl := none, thumbnailUrl := none,
         ogImageUrl := none, r2Key := none, status := .scraped,
         title := "", description := "" },
       { id := 3, externalId := "known03", sourceId := 1, runId := 4,
         imageUrl := none, videoUrl := none, thumbnailUrl := none,
         ogImageUrl := none, r2Key := none, status := .scraped,
         title := "", description := "" }]
      10
      [{ externalId := "fresh01" }, { externalId := "fresh02" }]
      [{ externalId := "known01" }, { externalId := "known02" },
       { externalId := "known03" }] 3
      rfl (by decide) (by decide) (by decide) (by decide) (by decide)
      (by decide) (by decide) (by decide) (by decide) (by decide)).2.2.2.1

/-- C10, witness: a concrete valid id passed through the attribute-JSON
helper survives discovery with all the validity facts. -/
theorem claim_C10_witness :
    "abcde12345" ∈ itemIdsOf (some ["abcde12345"]) none "".toList
      ∧ ("abcde12345".toList.all isIdChar = true
          ∧ 5 ≤ "abcde12345".toList.length
          ∧ "abcde12345".toList.length ≤ 24
          ∧ "abcde12345" ≠ "undefined" ∧ "abcde12345" ≠ "null"
          ∧ "abcde12345" ≠ "None" ∧ "abcde12345" ≠ "") :=
  ⟨by decide,
   (claim_C10_link_discovery (some ["abcde12345"]) none ""
      "https://savee.com").2.2.1 "abcde12345" (by decide)⟩

end Savee

